import Mathlib

/-!
Verification development for the pdf2doi repository (identifier resolution
engine). The Python sources in pdf2doi/patterns.py, pdf2doi/finders.py,
pdf2doi/config.py and pdf2doi/main.py are embedded shallowly: the regular
expression scans are realised by a small backtracking matcher whose greedy,
leftmost semantics mirror the behaviour of the Python re module on the
specific patterns appearing in the source; stateful collaborators (PyPDF2,
textract, pdftitle, requests, googlesearch, feedparser) are abstracted as
oracles carried by Document and Web records; Python exceptions that the
source can raise across function boundaries are modelled with the Except
monad, and the try/except blocks of the source are embedded as the
corresponding total handlers.

Strings are handled at ASCII granularity: Python str.lower is modelled by
Char.toLower and the character class for whitespace covers the ASCII
whitespace characters; all strings appearing in the source patterns and in
the analysed scenarios are ASCII.
-/

namespace Pdf2doi

abbrev Str := List Char

/-- Lowercasing of a character sequence: models Python str.lower for ASCII text. -/
def strLower (s : Str) : Str := s.map Char.toLower

/-- Lowercasing on strings. -/
def strLowerS (s : String) : String := String.mk (strLower s.toList)

/-- Splitting on a separator character, Python str.split(sep) for a one
character separator: empty pieces are kept and the empty string yields one
empty piece. -/
def splitCharGo (sep : Char) (cur : Str) : Str → List Str
  | [] => [cur.reverse]
  | x :: t => if x = sep then cur.reverse :: splitCharGo sep [] t
              else splitCharGo sep (x :: cur) t

def splitChar (sep : Char) (s : Str) : List Str := splitCharGo sep [] s

/-- Containment of one character sequence inside another, models Python
str.find(needle) >= 0. -/
def strContainsL : Str → Str → Bool
  | _, [] => true
  | [], _ :: _ => false
  | c :: t, pat => if List.isPrefixOf pat (c :: t) then true else strContainsL t pat

/-- Containment on strings. -/
def strContainsS (hay pat : String) : Bool := strContainsL hay.toList pat.toList

/-! ## Character classes of the source patterns (ASCII reading)

Each class below names one bracket expression of a regular expression in
pdf2doi/patterns.py. Ranges are expressed through Char.toNat so that the
arithmetic facts needed by the proofs are directly available.
-/

/-- The class backslash-d of the patterns: the ASCII digits 0-9. -/
def isPyDigit (c : Char) : Bool := 48 ≤ c.toNat && c.toNat ≤ 57

/-- The ASCII lowercase letters a-z. -/
def isLowerAZ (c : Char) : Bool := 97 ≤ c.toNat && c.toNat ≤ 122

/-- The class backslash-s of the patterns: ASCII whitespace
(space, tab, newline, carriage return, vertical tab, form feed). -/
def isPySpace (c : Char) : Bool :=
  c = ' ' || c = '\t' || c = '\n' || c = '\r' || c.toNat = 11 || c.toNat = 12

/-- Python str.strip without arguments: remove leading and trailing ASCII
whitespace. -/
def pyStrip (s : Str) : Str :=
  ((s.dropWhile isPySpace).reverse.dropWhile isPySpace).reverse

/-- Python str.split without arguments: split on whitespace runs, dropping
empty pieces. -/
def splitWSGo (cur : Str) : Str → List Str
  | [] => [cur.reverse]
  | x :: t => if isPySpace x then cur.reverse :: splitWSGo [] t
              else splitWSGo (x :: cur) t

def pySplitWS (s : Str) : List Str := (splitWSGo [] s).filter (fun w => w ≠ [])

/-- Class of the marker separator of the verbose DOI pattern: colon, slash or
whitespace. -/
def isMarkerSep (c : Char) : Bool := c = ':' || c = '/' || isPySpace c

/-- Class of the sep group of the verbose DOI pattern: colon, hyphen, slash,
whitespace or closing square bracket. -/
def isVerbSep (c : Char) : Bool := c = ':' || c = '-' || c = '/' || isPySpace c || c = ']'

/-- Class of the suffix group of the verbose DOI pattern: hyphen, dot,
underscore, semicolon, parentheses, slash, colon, lowercase letters, digits. -/
def isSuffixChar (c : Char) : Bool :=
  c = '-' || c = '.' || c = '_' || c = ';' || c = '(' || c = ')' ||
  c = '/' || c = ':' || isLowerAZ c || isPyDigit c

/-- Final character of the suffix group of the verbose DOI pattern: a
lowercase letter or a digit. -/
def isSuffixEnd (c : Char) : Bool := isLowerAZ c || isPyDigit c

/-- Class of the trailing group of the verbose DOI pattern: whitespace,
newline, double quote, angle bracket or dot. -/
def isVerbTrail (c : Char) : Bool := isPySpace c || c = '"' || c = '<' || c = '.'

/-- Separator class of doi_regexp version 0: whitespace, dot or colon. -/
def isDoi0Sep (c : Char) : Bool := isPySpace c || c = '.' || c = ':'

/-- Body class of doi_regexp versions 0 and 1 (case-insensitive patterns are
applied to lowercased characters): digit, colon, dot, hyphen, slash or letter. -/
def isDoi01Body (c : Char) : Bool :=
  isPyDigit c || c = ':' || c = '.' || c = '-' || c = '/' || isLowerAZ c

/-- First body class of doi_regexp version 2: colon, dot, hyphen, slash or letter. -/
def isDoi2BodyA (c : Char) : Bool := c = ':' || c = '.' || c = '-' || c = '/' || isLowerAZ c

/-- Second body class of doi_regexp version 2: colon, dot, hyphen or digit. -/
def isDoi2BodyB (c : Char) : Bool := c = ':' || c = '.' || c = '-' || isPyDigit c

/-- Ending class of doi_regexp versions 0, 1, 3 and of the arxiv patterns:
whitespace, newline, double quote or angle bracket. -/
def isEnd01 (c : Char) : Bool := isPySpace c || c = '"' || c = '<'

/-- Ending class of doi_regexp version 2: whitespace, newline, lowercase
letter, double quote or angle bracket. -/
def isEnd2 (c : Char) : Bool := isPySpace c || isLowerAZ c || c = '"' || c = '<'

/-- The printable ASCII class (space through tilde) of doi_regexp version 3. -/
def isPrintable (c : Char) : Bool := 32 ≤ c.toNat && c.toNat ≤ 126

/-- Suffix class of doi_regexp versions 3 and 4 (the crossref class): hyphen,
dot, underscore, semicolon, parentheses, slash, colon, letters, digits. -/
def isCrossref (c : Char) : Bool := isSuffixChar c

/-! ## A small backtracking matcher

A matcher consumes characters from the head of the input and hands the rest
to a continuation; alternatives are tried in the order the Python re engine
tries them (greedy quantifiers consume as much as possible first and give
back on failure of the continuation), so the first success returned is the
match the re module would produce.
-/

/-- Continuation-passing matchers over character sequences. -/
def Mt (α : Type) : Type := Str → (Str → Option α) → Option α

/-- The empty matcher. -/
def mEps {α : Type} : Mt α := fun s k => k s

/-- Match one character of the class p. -/
def mCls {α : Type} (p : Char → Bool) : Mt α := fun s k =>
  match s with
  | [] => none
  | c :: t => if p c then k t else none

/-- Sequencing of matchers. -/
def mSeq {α : Type} (m1 m2 : Mt α) : Mt α := fun s k => m1 s (fun s1 => m2 s1 k)

/-- Ordered alternation: the left branch is preferred, as in the re module. -/
def mAlt {α : Type} (m1 m2 : Mt α) : Mt α := fun s k =>
  match m1 s k with
  | some r => some r
  | none => m2 s k

/-- Greedy option: matching the body is preferred over skipping it. -/
def mOpt {α : Type} (m : Mt α) : Mt α := fun s k =>
  match m s k with
  | some r => some r
  | none => k s

/-- Greedy counted repetition of a character class between lo and hi
occurrences: longer consumptions are tried first, exactly like the
backtracking of the re module on a greedy quantifier. -/
def mRep {α : Type} (p : Char → Bool) (lo : Nat) : Nat → Mt α
  | 0, s, k => if lo = 0 then k s else none
  | Nat.succ hi, s, k =>
    match s with
    | [] => if lo = 0 then k s else none
    | c :: t =>
      if p c then
        match mRep p (lo - 1) hi t k with
        | some r => some r
        | none => if lo = 0 then k s else none
      else if lo = 0 then k s else none

/-- Greedy star over a character class. -/
def mStar {α : Type} (p : Char → Bool) : Mt α := fun s k => mRep p 0 s.length s k

/-- Greedy plus over a character class. -/
def mPlus {α : Type} (p : Char → Bool) : Mt α := fun s k => mRep p 1 s.length s k

/-- Match an exact character. -/
def mChr {α : Type} (c : Char) : Mt α := mCls (fun x => x = c)

/-- Match an exact character up to lowercasing (for the patterns compiled
with re.I; candidate characters are lowercased before comparison). -/
def mChrCI {α : Type} (c : Char) : Mt α := mCls (fun x => x.toLower = c)

/-- Match a literal sequence of characters case-insensitively. -/
def mLitCI {α : Type} (cs : Str) : Mt α := cs.foldr (fun c m => mSeq (mChrCI c) m) mEps

/-- Match a literal sequence of characters exactly. -/
def mLit {α : Type} (cs : Str) : Mt α := cs.foldr (fun c m => mSeq (mChr c) m) mEps

/-- The anchor dollar without re.M: end of input, or just before an input
that is exactly one trailing newline. -/
def mDollar {α : Type} : Mt α := fun s k =>
  match s with
  | [] => k []
  | ['\n'] => k s
  | _ => none

/-- The anchor dollar under re.M: end of input or just before any newline. -/
def mDollarM {α : Type} : Mt α := fun s k =>
  match s with
  | [] => k []
  | '\n' :: _ => k s
  | _ => none

/-- Length difference between a sequence and one of its tails: recovers the
characters a sub-matcher consumed, given the remainders before and after. -/
def takeDiff (before after : Str) : Str := before.take (before.length - after.length)

/-! ## The scan driver

reFindGo mirrors the scanning loop of re.findall and re.finditer: attempt a
match at each position from the left; on success record the captured value
and resume after the matched region; on failure advance one character. The
fuel argument bounds the scan by the input length. The Bool argument tells
an anchored pattern whether the current position is the start of the input.
-/

def reFindGo {β : Type} (mA : Bool → Str → Option (β × Nat)) :
    Nat → Bool → Str → List β
  | 0, _, _ => []
  | Nat.succ fuel, atStart, s =>
    match mA atStart s with
    | some (g, n) =>
      match s with
      | [] => [g]
      | _ :: t => if n = 0 then g :: reFindGo mA fuel false t
                  else g :: reFindGo mA fuel false (s.drop n)
    | none =>
      match s with
      | [] => []
      | _ :: t => reFindGo mA fuel false t

/-- All captures of a pattern in a sequence, in order of appearance. -/
def reFindAll {β : Type} (mA : Bool → Str → Option (β × Nat)) (s : Str) : List β :=
  reFindGo mA (s.length + 1) true s

/-- Classes of patterns compiled with re.I are applied to the lowercased
candidate character. -/
def ciCls (p : Char → Bool) (c : Char) : Bool := p c.toLower

/-! ## The verbose DOI pattern of pdf2doi/patterns.py

The pattern DOI (flags x and m, input lowercased by standardise_doi) reads,
stage by stage: an optional marker (literal doi followed by zero to three
marker separator characters), the literal 10, a dot, the registrant group
(two to nine digits), one sep class character, the suffix group (one or more
suffix class characters followed by one closing letter or digit) and a
trailing character class or the multiline dollar anchor. Each stage below is
a named function so the proofs can follow the pattern left to right; the
value produced is the pair of captures (registrant, suffix) together with
the length of the whole match.
-/

def dvTrail (s0 r sfx : Str) : Str → Option ((Str × Str) × Nat) := fun s5 =>
  (mAlt (mCls isVerbTrail) mDollarM) s5 (fun s6 =>
    some ((r, sfx), s0.length - s6.length))

def dvSuffix (s0 r : Str) : Str → Option ((Str × Str) × Nat) := fun s4 =>
  (mSeq (mPlus isSuffixChar) (mCls isSuffixEnd)) s4 (fun s5 =>
    dvTrail s0 r (takeDiff s4 s5) s5)

def dvSep (s0 r : Str) : Str → Option ((Str × Str) × Nat) := fun s3 =>
  (mCls isVerbSep) s3 (fun s4 => dvSuffix s0 r s4)

def dvReg (s0 : Str) : Str → Option ((Str × Str) × Nat) := fun s2 =>
  (mRep isPyDigit 2 9) s2 (fun s3 => dvSep s0 (takeDiff s2 s3) s3)

def dvBody (s0 : Str) : Str → Option ((Str × Str) × Nat) := fun s1 =>
  (mSeq (mLit ['1', '0']) (mChr '.')) s1 (fun s2 => dvReg s0 s2)

/-- One attempt of the verbose DOI pattern at the head of s. -/
def doiVerbAt (s : Str) : Option ((Str × Str) × Nat) :=
  (mOpt (mSeq (mLit ['d', 'o', 'i']) (mRep isMarkerSep 0 3))) s (fun s1 => dvBody s s1)

/-- re.finditer of the verbose DOI pattern: the (registrant, suffix) capture
pairs of all non-overlapping matches, left to right. -/
def DOI_finditer (s : Str) : List (Str × Str) :=
  reFindAll (fun _ t => doiVerbAt t) s

/-- standardise_doi of pdf2doi/patterns.py: iterate the verbose DOI pattern
over the lowercased input, keep the named groups of the last match (each
groupdict update overwrites the previous one and registrant and suffix are
populated in every match), and rebuild the string 10.registrant/suffix; when
no match participates the registrant and suffix keys are absent and the
function yields None. -/
def standardise_doi (identifier : String) : Option String :=
  match (DOI_finditer (strLower identifier.toList)).getLast? with
  | none => none
  | some (r, sfx) => some (String.mk ('1' :: '0' :: '.' :: (r ++ '/' :: sfx)))

/-! ## The doi_regexp list of pdf2doi/patterns.py

Five patterns, all compiled with re.I, each with a single capturing group;
re.findall therefore yields the list of group captures. Each pattern is
written below left to right with the same stages as its source text.
-/

/-- The common capturing group of doi_regexp versions 0 and 1. -/
def doiCore01 : Mt (Str × Nat) :=
  mSeq (mLitCI ['1', '0'])
    (mSeq (mChrCI '.') (mSeq (mRep (ciCls isPyDigit) 4 4) (mPlus (ciCls isDoi01Body))))

/-- doi_regexp version 0: a doi marker with up to two separator characters,
the capturing group, then an ending character or the end of the input. -/
def doiAt0 : Bool → Str → Option (Str × Nat) := fun _ s =>
  (mSeq (mLitCI ['d', 'o', 'i']) (mRep (ciCls isDoi0Sep) 0 2)) s (fun s1 =>
    doiCore01 s1 (fun s2 =>
      (mAlt (mCls (ciCls isEnd01)) mDollar) s2 (fun s3 =>
        some (takeDiff s1 s2, s.length - s3.length))))

/-- doi_regexp version 1: version 0 without the marker requirement. -/
def doiAt1 : Bool → Str → Option (Str × Nat) := fun _ s =>
  doiCore01 s (fun s2 =>
    (mAlt (mCls (ciCls isEnd01)) mDollar) s2 (fun s3 =>
      some (takeDiff s s2, s.length - s3.length)))

/-- doi_regexp version 2: the group ends in digits and punctuation and the
ending class also accepts a letter. -/
def doiAt2 : Bool → Str → Option (Str × Nat) := fun _ s =>
  (mSeq (mLitCI ['1', '0'])
      (mSeq (mChrCI '.')
        (mSeq (mRep (ciCls isPyDigit) 4 4)
          (mSeq (mPlus (ciCls isDoi2BodyA)) (mPlus (ciCls isDoi2BodyB)))))) s (fun s2 =>
    (mAlt (mCls (ciCls isEnd2)) mDollar) s2 (fun s3 =>
      some (takeDiff s s2, s.length - s3.length)))

/-- The capturing group of doi_regexp versions 3 and 4 (the crossref shape). -/
def doiCore34 : Mt (Str × Nat) :=
  mSeq (mLitCI ['1', '0'])
    (mSeq (mChrCI '.')
      (mSeq (mRep (ciCls isPyDigit) 4 9) (mSeq (mChrCI '/') (mPlus (ciCls isCrossref)))))

/-- doi_regexp version 3: an http or https URL containing doi and a slash,
then the crossref group, then an ending character or the end of the input. -/
def doiAt3 : Bool → Str → Option (Str × Nat) := fun _ s =>
  (mSeq (mLitCI ['h', 't', 't', 'p'])
      (mSeq (mOpt (mChrCI 's'))
        (mSeq (mLitCI [':', '/', '/'])
          (mSeq (mStar (ciCls isPrintable))
            (mSeq (mLitCI ['d', 'o', 'i'])
              (mSeq (mStar (ciCls isPrintable)) (mChrCI '/'))))))) s (fun s1 =>
    doiCore34 s1 (fun s2 =>
      (mAlt (mCls (ciCls isEnd01)) mDollar) s2 (fun s3 =>
        some (takeDiff s1 s2, s.length - s3.length))))

/-- doi_regexp version 4: the crossref group anchored to span the whole
input (caret and dollar without re.M). -/
def doiAt4 : Bool → Str → Option (Str × Nat) := fun atStart s =>
  if atStart then
    doiCore34 s (fun s2 =>
      mDollar s2 (fun s3 => some (takeDiff s s2, s.length - s3.length)))
  else none

/-- re.findall with doi_regexp of the given version; versions outside the
list are handled by the caller. -/
def doi_findall (version : Nat) (s : Str) : List Str :=
  match version with
  | 0 => reFindAll doiAt0 s
  | 1 => reFindAll doiAt1 s
  | 2 => reFindAll doiAt2 s
  | 3 => reFindAll doiAt3 s
  | 4 => reFindAll doiAt4 s
  | _ => []

/-! ## The arxiv_regexp list and arxiv2007_pattern of pdf2doi/patterns.py -/

/-- The capturing group of the arxiv patterns: four digits, a dot, one or
more digits. -/
def arxivCore : Mt (Str × Nat) :=
  mSeq (mRep (ciCls isPyDigit) 4 4) (mSeq (mChrCI '.') (mPlus (ciCls isPyDigit)))

/-- The optional version tag of the arxiv patterns: v followed by digits. -/
def arxivVer : Mt (Str × Nat) :=
  mOpt (mSeq (mChrCI 'v') (mPlus (ciCls isPyDigit)))

/-- arxiv_regexp version 0: the arxiv marker, optional spaces around a
colon, the group, an optional version tag, then an ending character or the
end of the input. -/
def arxivAt0 : Bool → Str → Option (Str × Nat) := fun _ s =>
  (mSeq (mLitCI ['a', 'r', 'x', 'i', 'v'])
      (mSeq (mStar (ciCls isPySpace))
        (mSeq (mChrCI ':') (mStar (ciCls isPySpace))))) s (fun s1 =>
    arxivCore s1 (fun s2 =>
      arxivVer s2 (fun s3 =>
        (mAlt (mCls (ciCls isEnd01)) mDollar) s3 (fun s4 =>
          some (takeDiff s1 s2, s.length - s4.length)))))

/-- arxiv_regexp version 1: the group, an optional version tag, and the
literal .pdf right after. -/
def arxivAt1 : Bool → Str → Option (Str × Nat) := fun _ s =>
  arxivCore s (fun s2 =>
    arxivVer s2 (fun s3 =>
      (mLitCI ['.', 'p', 'd', 'f']) s3 (fun s4 =>
        some (takeDiff s s2, s.length - s4.length))))

/-- arxiv_regexp version 2: the group with optional version tag anchored to
span the whole input. -/
def arxivAt2 : Bool → Str → Option (Str × Nat) := fun atStart s =>
  if atStart then
    arxivCore s (fun s2 =>
      arxivVer s2 (fun s3 =>
        mDollar s3 (fun s4 => some (takeDiff s s2, s.length - s4.length))))
  else none

/-- re.findall with arxiv_regexp of the given version. -/
def arxiv_findall (version : Nat) (s : Str) : List Str :=
  match version with
  | 0 => reFindAll arxivAt0 s
  | 1 => reFindAll arxivAt1 s
  | 2 => reFindAll arxivAt2 s
  | _ => []

/-- re.match of arxiv2007_pattern with re.I, as used by validate: the
pattern text coincides with arxiv_regexp version 2 and re.match anchors the
attempt at the start of the string. -/
def arxiv2007_match (identifier : String) : Bool :=
  (arxivAt2 true identifier.toList).isSome

/-! ## Python values and collaborator outcomes

The finder functions of pdf2doi/finders.py traffic in Python values of
several runtime types. PyVal models the possible return values of the
validate function (None, a boolean, a string, or the feed entry object of
the arxiv query, abstracted by its size); TextItem models the values that
can reach find_identifier_in_text (a str, a bytes object tagged with
whether it decodes as UTF-8, or a non-text object such as None, on which
re.findall raises a TypeError that the source catches); PyResult models a
collaborator call that either returns a value or raises; PyExn models the
exceptions that can escape an embedded function. -/

inductive PyVal where
  | pynone
  | pybool (b : Bool)
  | pystr (s : String)
  | pyitems (n : Nat)
deriving DecidableEq, Repr

/-- Python truthiness of the modelled values. -/
def PyVal.truthy : PyVal → Bool
  | .pynone => false
  | .pybool b => b
  | .pystr s => s != ""
  | .pyitems n => n != 0

inductive TextItem where
  | pynone
  | str (s : String)
  | bytes (decodable : Bool) (s : String)
deriving DecidableEq, Repr

inductive PyExn where
  | unicodeDecodeError
  | typeError
  | valueError
deriving DecidableEq, Repr

inductive PyResult (α : Type) where
  | raise
  | ok (a : α)
deriving DecidableEq, Repr

/-- An HTTP response as seen by validate_doi_web: the requests.get call
either raises or produces a status code and a body. -/
inductive HttpResp where
  | raise
  | resp (status : Nat) (body : String)
deriving DecidableEq, Repr

/-- A successful finder outcome: the candidate that validated, the
description of its kind, and the validation value. -/
abbrev Found := String × String × PyVal

/-- Validators as passed for func_validate: candidate and kind to a Python
value, truthy exactly when the candidate is accepted. -/
abbrev Validator := String → String → PyVal

/-! ## Documents, configuration and the network

A Document bundles the outcomes of the collaborator calls the finders make
on one file: the PyPDF2 document info dictionary, the page texts of the
PyPDF2 extraction, the two textract attempts (the first decodes with errors
ignored and yields a str, the fallback yields raw bytes), and the pdftitle
result. Config carries the process wide parameters of pdf2doi/config.py
that the embedded functions read. Web carries the network collaborators:
the dx.doi.org responses per attempt, the arxiv feed (entries abstracted by
the size of the first entry), the google search and the page fetch. -/

structure Document where
  name : String
  infoResult : PyResult (List (String × TextItem))
  pypdfPages : PyResult (List String)
  textract1 : PyResult String
  textract2 : PyResult (Bool × String)
  pdftitleResult : PyResult TextItem

structure Config where
  webvalidation : Bool
  websearch : Bool
  numb_results_google_search : Nat
  N_characters_in_pdf : Nat
  save_identifier_metadata : Bool
  method_dxdoiorg : String

/-- The default parameter values of pdf2doi/config.py. -/
def default_config : Config :=
  { webvalidation := true, websearch := true, numb_results_google_search := 6,
    N_characters_in_pdf := 1000, save_identifier_metadata := true,
    method_dxdoiorg := "application/citeproc+json" }

structure Web where
  dxdoi : String → Nat → HttpResp
  arxivFeed : String → PyResult (List Nat)
  googleSearch : String → Nat → PyResult (List String)
  httpGet : String → PyResult String

/-! ## Low level finder functions of pdf2doi/finders.py -/

/-- extract_doi_from_text: re.findall with doi_regexp of the given version;
the bare except of the source converts the TypeError raised on a non-string
argument, and the IndexError raised on an out-of-range version, into the
empty list. -/
def extract_doi_from_text : TextItem → Nat → List String
  | TextItem.str s, version => (doi_findall version s.toList).map String.mk
  | _, _ => []

/-- extract_arxivID_from_text: same shape for arxiv_regexp. -/
def extract_arxivID_from_text : TextItem → Nat → List String
  | TextItem.str s, version => (arxiv_findall version s.toList).map String.mk
  | _, _ => []

/-- The check for a transient dx.doi.org response in validate_doi_web: a
server error status, a body containing 503 Service Unavailable (compared in
lowercase), or an empty body. -/
def transientResp (status : Nat) (body : String) : Bool :=
  500 ≤ status || strContainsS (strLowerS body) "503 service unavailable" || body = ""

/-- The outcome of validate_doi_web: -1 (connection error), None (no paper
associated to the doi), or the response text. -/
inductive DoiWebOutcome where
  | connError
  | notFound
  | ok (text : String)
deriving DecidableEq, Repr

/-- The while loop of validate_doi_web. The first argument gives the
response of the i-th requests.get call; the counters are the remaining
NumberAttempts, the index of the next response and the number of requests
performed so far (returned alongside the outcome). A transient response
decrements the budget and retries at once; falling out of the loop with the
budget exhausted reaches the end of the function body, whose implicit
return value is None. -/
def validate_doi_web_loop (respFn : Nat → HttpResp) :
    Nat → Nat → Nat → DoiWebOutcome × Nat
  | 0, _, used => (.notFound, used)
  | Nat.succ att, i, used =>
    match respFn i with
    | .raise => (.connError, used + 1)
    | .resp status body =>
      if transientResp status body then
        validate_doi_web_loop respFn att (i + 1) (used + 1)
      else if strContainsS (strLowerS body) "doi not found" then (.notFound, used + 1)
      else (.ok body, used + 1)

/-- validate_doi_web: query dx.doi.org for a doi with NumberAttempts = 10.
The method argument only selects the accept header of the request and does
not influence the control flow. -/
def validate_doi_web (web : Web) (doi : String) (method : String) : DoiWebOutcome × Nat :=
  validate_doi_web_loop (web.dxdoi doi) 10 0 0

/-- The outcome of validate_arxivID_web: -1 (connection error), None (no
paper found), or the feed entry. -/
inductive ArxivWebOutcome where
  | connError
  | noneFound
  | items (n : Nat)
deriving DecidableEq, Repr

/-- validate_arxivID_web: parse the arxiv feed for an id. Reading
result.entries[0] on an empty result list raises an IndexError that the
surrounding except turns into -1. -/
def validate_arxivID_web (web : Web) (arxivID : String) : ArxivWebOutcome :=
  match web.arxivFeed arxivID with
  | .raise => .connError
  | .ok [] => .connError
  | .ok (n :: _) => if 0 < n then .items n else .noneFound

/-- validate of pdf2doi/finders.py. An empty identifier yields None. For a
doi the identifier is standardised; with web validation the outcome of
validate_doi_web is mapped to None (connection error), False (validation
string starting with the tag for a collection record, or a not-found
answer), or the validation text; without web validation a standardisable
doi yields True. For an arxiv id the syntactic check is re.match with
arxiv2007_pattern. Any other kind yields False. -/
def validate (cfg : Config) (web : Web) (identifier : String) (what : String) : PyVal :=
  if identifier = "" then .pynone
  else if what = "doi" then
    match standardise_doi identifier with
    | some doi_id =>
      if cfg.webvalidation then
        match (validate_doi_web web doi_id cfg.method_dxdoiorg).1 with
        | .connError => .pynone
        | .ok text =>
          if (pyStrip text.toList).take 5 = "@misc".toList then .pybool false
          else if text != "" then .pystr text
          else .pybool false
        | .notFound => .pybool false
      else .pybool true
    | none => .pybool false
  else if what = "arxiv" then
    if arxiv2007_match identifier then
      if cfg.webvalidation then
        match validate_arxivID_web web identifier with
        | .connError => .pynone
        | .items n => .pyitems n
        | .noneFound => .pybool false
      else .pybool true
    else .pybool false
  else .pybool false

/-! ## find_identifier_in_text -/

/-- The decode step at the head of the text loop: a bytes item is decoded,
raising a UnicodeDecodeError when the bytes are not valid UTF-8; other
items pass through unchanged. -/
def decodeItem : TextItem → Except PyExn TextItem
  | TextItem.bytes true s => .ok (TextItem.str s)
  | TextItem.bytes false _ => .error .unicodeDecodeError
  | t => .ok t

/-- The inner candidate loop: validate the extracted candidates in order
and return the first accepted one with its description and validation
value. -/
def candidatesGo (fv : Validator) (kind desc : String) : List String → Option Found
  | [] => none
  | c :: cs =>
    let val := fv c kind
    if val.truthy then some (c, desc, val) else candidatesGo fv kind desc cs

/-- The loop over pattern versions for one text. -/
def versionsGo (fv : Validator) (kind desc : String) (extract : Nat → List String) :
    List Nat → Option Found
  | [] => none
  | v :: vs =>
    match candidatesGo fv kind desc (extract v) with
    | some r => some r
    | none => versionsGo fv kind desc extract vs

/-- The doi scan of one text: all five doi_regexp versions in order. -/
def doiScan (t : TextItem) (fv : Validator) : Option Found :=
  versionsGo fv "doi" "DOI" (extract_doi_from_text t) (List.range 5)

/-- The arxiv scan of one text: all three arxiv_regexp versions in order. -/
def arxivScan (t : TextItem) (fv : Validator) : Option Found :=
  versionsGo fv "arxiv" "arxiv ID" (extract_arxivID_from_text t) (List.range 3)

/-- find_identifier_in_text of pdf2doi/finders.py: texts are checked in
order; for each text the doi patterns are scanned first and the arxiv
patterns second; the first candidate accepted by func_validate is returned.
The decode of a bytes item can raise. -/
def find_identifier_in_text (texts : List TextItem) (fv : Validator) :
    Except PyExn (Option Found) :=
  match texts with
  | [] => .ok none
  | t :: rest =>
    match decodeItem t with
    | .error e => .error e
    | .ok t2 =>
      match doiScan t2 fv with
      | some r => .ok (some r)
      | none =>
        match arxivScan t2 fv with
        | some r => .ok (some r)
        | none => find_identifier_in_text rest fv

/-! ## Document collaborators -/

/-- get_pdf_info: the PyPDF2 document information, with both failure modes
of the source (opening the file, reading the info) caught and turned into
None. -/
def get_pdf_info (doc : Document) : Option (List (String × TextItem)) :=
  match doc.infoResult with
  | .raise => none
  | .ok m => some m

/-- get_pdf_text: with the pypdf reader a PyPDF2 failure yields None and
success yields the per-page strings; with the textract reader the first
attempt (decoded with errors ignored) yields a single string, the fallback
yields the raw bytes, and a double failure leaves the initial empty list;
any other reader name also leaves the initial empty list. -/
def get_pdf_text (doc : Document) (reader : String) : Option (List TextItem) :=
  if reader = "pypdf" then
    match doc.pypdfPages with
    | .raise => none
    | .ok pages => some (pages.map TextItem.str)
  else if reader = "textract" then
    match doc.textract1 with
    | .ok s => some [TextItem.str s]
    | .raise =>
      match doc.textract2 with
      | .ok ds => some [TextItem.bytes ds.1 ds.2]
      | .raise => some []
  else some []

/-- os.path.basename restricted to the slash separator; the analysed file
names contain no separator, for which basename is the identity. -/
def basename (path : String) : String :=
  String.mk ((splitChar '/' path.toList).getLastD path.toList)

/-- find_possible_titles: the pdftitle outcome (an exception is caught and
replaced by the empty string; a non-string return makes the whole function
return None), then the title-like document info fields, then the file name,
each filtered by the length thresholds of the source; a missing or empty
info dictionary makes the function return None. -/
def find_possible_titles (doc : Document) : Option (List String) :=
  let title0 : TextItem :=
    match doc.pdftitleResult with
    | .raise => TextItem.str ""
    | .ok t => t
  match title0 with
  | TextItem.str title =>
    let titles1 := if 12 < (pyStrip title.toList).length then [title] else []
    match get_pdf_info doc with
    | none => none
    | some info =>
      if info = [] then none
      else
        let fromInfo := info.filterMap (fun kv =>
          if strContainsS (strLowerS kv.1) "title" then
            match kv.2 with
            | TextItem.str v =>
              if 12 < (pyStrip v.toList).length && 3 < (pySplitWS v.toList).length then
                some v
              else none
            | _ => none
          else none)
        let base := basename doc.name
        some (titles1 ++ fromInfo ++
          (if 30 < (pyStrip base.toList).length then [base] else []))
  | _ => none

/-! ## High level finder functions -/

/-- The keys excluded from the metadata scan. -/
def KeysNotToUse : List String := ["/wps-journaldoi"]

/-- First value stored under a key of the info dictionary. -/
def lookupMeta (m : List (String × TextItem)) (k : String) : Option TextItem :=
  (m.find? (fun kv => kv.1 = k)).map (fun kv => kv.2)

/-- Deletion of a key from the info dictionary. -/
def delMeta (m : List (String × TextItem)) (k : String) : List (String × TextItem) :=
  m.eraseP (fun kv => kv.1 = k)

/-- The key loop of find_identifier_in_pdf_info: each key still present in
the dictionary and not excluded is scanned with find_identifier_in_text;
the loop stops at the first accepted identifier, and a checked key is
deleted so a duplicated entry of keysToCheckFirst is not checked twice. -/
def infoLoop (fv : Validator) : List String → List (String × TextItem) →
    Except PyExn (Option Found)
  | [], _ => .ok none
  | key :: ks, pdfinfo =>
    match lookupMeta pdfinfo key with
    | some value =>
      if strLowerS key ∈ KeysNotToUse then infoLoop fv ks pdfinfo
      else
        match find_identifier_in_text [value] fv with
        | .error e => .error e
        | .ok (some r) => .ok (some r)
        | .ok none => infoLoop fv ks (delMeta pdfinfo key)
    | none => infoLoop fv ks pdfinfo

/-- find_identifier_in_pdf_info: the scanned key sequence is
keysToCheckFirst followed by the dictionary keys in their order; a missing
or empty dictionary yields no identifier. -/
def find_identifier_in_pdf_info (doc : Document) (fv : Validator)
    (keysToCheckFirst : List String) : Except PyExn (Option Found) :=
  match get_pdf_info doc with
  | none => .ok none
  | some pdfinfo =>
    if pdfinfo = [] then .ok none
    else infoLoop fv (keysToCheckFirst ++ pdfinfo.map (fun kv => kv.1)) pdfinfo

/-- itertools.accumulate of the dot-separated name pieces under the join
with a dot: the progressive prefixes of the file name. -/
def accumJoinGo (acc : Str) : List Str → List Str
  | [] => [acc]
  | q :: qs => acc :: accumJoinGo (acc ++ '.' :: q) qs

def accumJoin : List Str → List Str
  | [] => []
  | p :: ps => accumJoinGo p ps

/-- The text list scanned by find_identifier_in_filename: the base name
followed by the reversed accumulated prefixes (longest first). -/
def filenameTexts (name : String) : List String :=
  let text := basename name
  text :: ((accumJoin (splitChar '.' text.toList)).reverse).map String.mk

/-- find_identifier_in_filename of pdf2doi/finders.py. -/
def find_identifier_in_filename (doc : Document) (fv : Validator) :
    Except PyExn (Option Found) :=
  find_identifier_in_text ((filenameTexts doc.name).map TextItem.str) fv

/-- The reader list of pdf2doi/finders.py. -/
def reader_libraries : List String := ["PyPdf", "textract"]

/-- The reader loop of find_identifier_in_pdf_text: a None from
get_pdf_text is wrapped into a one-element list (texts = [texts] when the
value is not a list), an empty list skips the scan, and the first accepted
identifier is returned. -/
def pdfTextGo (doc : Document) (fv : Validator) : List String →
    Except PyExn (Option Found)
  | [] => .ok none
  | reader :: rest =>
    let texts : List TextItem :=
      match get_pdf_text doc (strLowerS reader) with
      | none => [TextItem.pynone]
      | some l => l
    if texts = [] then pdfTextGo doc fv rest
    else
      match find_identifier_in_text texts fv with
      | .error e => .error e
      | .ok (some r) => .ok (some r)
      | .ok none => pdfTextGo doc fv rest

/-- find_identifier_in_pdf_text of pdf2doi/finders.py. -/
def find_identifier_in_pdf_text (doc : Document) (fv : Validator) :
    Except PyExn (Option Found) :=
  pdfTextGo doc fv reader_libraries

/-- The url loop of find_identifier_in_google_search: for each search
result the url itself is scanned first, then the fetched page body; the
try block around the whole loop converts any exception (a fetch failure or
an exception from the text scan) into the no-identifier answer. -/
def googleLoop (fv : Validator) (web : Web) : List String → Option Found
  | [] => none
  | url :: rest =>
    match find_identifier_in_text [TextItem.str url] fv with
    | .error _ => none
    | .ok (some r) => some r
    | .ok none =>
      match web.httpGet url with
      | .raise => none
      | .ok body =>
        match find_identifier_in_text [TextItem.str body] fv with
        | .error _ => none
        | .ok (some r) => some r
        | .ok none => googleLoop fv web rest

/-- find_identifier_in_google_search of pdf2doi/finders.py; a failure of
the search call itself is caught by the same try block. -/
def find_identifier_in_google_search (query : String) (fv : Validator)
    (numb_results : Nat) (web : Web) : Option Found :=
  match web.googleSearch query numb_results with
  | .raise => none
  | .ok urls => googleLoop fv web urls

/-- The title loop of find_identifier_by_googling_title. -/
def titleSearchGo (fv : Validator) (cfg : Config) (web : Web) :
    List String → Option Found
  | [] => none
  | title :: rest =>
    match find_identifier_in_google_search title fv cfg.numb_results_google_search web with
    | some r => some r
    | none => titleSearchGo fv cfg web rest

/-- Stable insertion of a title into a list sorted by decreasing length: a
title walks past strictly longer ones and stops before ties, so the sort
below realises the stable list.sort with key len and reverse of the
source. -/
def insertDescLen (a : String) : List String → List String
  | [] => [a]
  | b :: t => if a.length < b.length then b :: insertDescLen a t else a :: b :: t

def sortDescLen : List String → List String
  | [] => []
  | a :: t => insertDescLen a (sortDescLen t)

/-- find_identifier_by_googling_title of pdf2doi/finders.py: candidate
titles sorted by decreasing length (a stable sort, as list.sort with
reverse), each used as a google query; with web search disabled, or with no
titles, no identifier is produced. -/
def find_identifier_by_googling_title (doc : Document) (fv : Validator)
    (cfg : Config) (web : Web) : Option Found :=
  match find_possible_titles doc with
  | some titles =>
    if titles = [] then none
    else if cfg.websearch = false then none
    else titleSearchGo fv cfg web (sortDescLen titles)
  | none => none

/-- Python str.join of the page texts: raises a TypeError at the first item
that is not a str. -/
def joinList : List TextItem → Except PyExn String
  | [] => .ok ""
  | TextItem.str s :: rest =>
    match joinList rest with
    | .error e => .error e
    | .ok r => .ok (s ++ r)
  | _ :: _ => .error .typeError

/-- The character cleanup of find_identifier_by_googling_first_N_characters:
non-ASCII characters, newlines, carriage returns and tabs become spaces. -/
def sanitizeText (s : String) : String :=
  String.mk (s.toList.map (fun c =>
    if 127 < c.toNat then ' '
    else if c = '\n' || c = '\r' || c = '\t' then ' '
    else c))

/-- The reader loop of find_identifier_by_googling_first_N_characters: a
None text is not a list and not a str, so the reader is skipped; an empty
list is skipped; a list is joined (which raises on a non-str page), cleaned
up, truncated to numb_characters and used as a google query. -/
def googleNGo (doc : Document) (fv : Validator) (cfg : Config) (web : Web)
    (numb_results numb_characters : Nat) : List String → Except PyExn (Option Found)
  | [] => .ok none
  | reader :: rest =>
    match get_pdf_text doc (strLowerS reader) with
    | none => googleNGo doc fv cfg web numb_results numb_characters rest
    | some items =>
      if items = [] then googleNGo doc fv cfg web numb_results numb_characters rest
      else
        match joinList items with
        | .error e => .error e
        | .ok text1 =>
          let text2 := sanitizeText text1
          if text2 = "" then googleNGo doc fv cfg web numb_results numb_characters rest
          else
            match find_identifier_in_google_search
                (String.mk (text2.toList.take numb_characters)) fv
                numb_results web with
            | some r => .ok (some r)
            | none => googleNGo doc fv cfg web numb_results numb_characters rest

/-- find_identifier_by_googling_first_N_characters_in_pdf of
pdf2doi/finders.py. -/
def find_identifier_by_googling_first_N_characters_in_pdf (doc : Document)
    (fv : Validator) (cfg : Config) (web : Web) : Except PyExn (Option Found) :=
  if cfg.websearch = false then .ok none
  else googleNGo doc fv cfg web cfg.numb_results_google_search cfg.N_characters_in_pdf
    reader_libraries

/-! ## find_identifier and the resolution pipeline of pdf2doi/main.py -/

/-- The method names of the finder_methods dictionary. -/
def finder_method_names : List String :=
  ["document_infos", "document_text", "filename", "title_google",
   "first_N_characters_google"]

/-- The result dictionary built by find_identifier. -/
structure ResultDict where
  identifier : Option String
  identifier_type : Option String
  validation_info : PyVal
  path : String
  method : String
deriving DecidableEq, Repr

/-- Dispatch of find_identifier on the method name; the keysToCheckFirst
keyword argument only reaches the document_infos finder. -/
def dispatchFinder (doc : Document) (fv : Validator) (cfg : Config) (web : Web)
    (keys : List String) (method : String) : Except PyExn (Option Found) :=
  if method = "document_infos" then find_identifier_in_pdf_info doc fv keys
  else if method = "document_text" then find_identifier_in_pdf_text doc fv
  else if method = "filename" then find_identifier_in_filename doc fv
  else if method = "title_google" then .ok (find_identifier_by_googling_title doc fv cfg web)
  else find_identifier_by_googling_first_N_characters_in_pdf doc fv cfg web

/-- find_identifier of pdf2doi/finders.py: an unknown method raises a
ValueError; otherwise the selected finder runs and its triple is packed
into the result dictionary together with the file path and the method
name. -/
def find_identifier (doc : Document) (method : String) (fv : Validator)
    (cfg : Config) (web : Web) (keys : List String) : Except PyExn ResultDict :=
  if method ∉ finder_method_names then .error .valueError
  else
    match dispatchFinder doc fv cfg web keys method with
    | .error e => .error e
    | .ok trip =>
      .ok { identifier := trip.map (fun t => t.1),
            identifier_type := trip.map (fun t => t.2.1),
            validation_info := (match trip with
              | none => PyVal.pynone
              | some t => t.2.2),
            path := doc.name, method := method }

/-- Truthiness of the identifier entry of a result dictionary, as tested by
the if statements of pdf2doi_singlefile. -/
def identifierTruthy : Option String → Bool
  | none => false
  | some s => s != ""

/-- The keysToCheckFirst literal of pdf2doi/main.py (note the spelling of
its second element in the source). -/
def mainKeysToCheckFirst : List String := ["/doi", "/identfier"]

/-- pdf2doi_singlefile of pdf2doi/main.py: the five finder methods in their
fixed order, each returning its result as soon as the identifier entry is
truthy; the func_validate argument is left at its default, the validate
function reading the process configuration. -/
def pdf2doi_singlefile (doc : Document) (cfg : Config) (web : Web) :
    Except PyExn ResultDict :=
  match find_identifier doc "document_infos" (validate cfg web) cfg web
      mainKeysToCheckFirst with
  | .error e => .error e
  | .ok r1 =>
    if identifierTruthy r1.identifier then .ok r1
    else
      match find_identifier doc "filename" (validate cfg web) cfg web [] with
      | .error e => .error e
      | .ok r2 =>
        if identifierTruthy r2.identifier then .ok r2
        else
          match find_identifier doc "document_text" (validate cfg web) cfg web [] with
          | .error e => .error e
          | .ok r3 =>
            if identifierTruthy r3.identifier then .ok r3
            else
              match find_identifier doc "title_google" (validate cfg web) cfg web [] with
              | .error e => .error e
              | .ok r4 =>
                if identifierTruthy r4.identifier then .ok r4
                else
                  match find_identifier doc "first_N_characters_google"
                      (validate cfg web) cfg web [] with
                  | .error e => .error e
                  | .ok r5 => .ok r5

/-- Modelled from the spec (section 4.4): the resolver runs the strategies
of the fixed order list, returning as soon as one produces a truthy
identifier, and otherwise returns the result of the last strategy. -/
def strategyOrder : List String :=
  ["document_infos", "filename", "document_text", "title_google",
   "first_N_characters_google"]

/-- Modelled from the spec: the first-confirmed-wins fold over an ordered
strategy list; the metadata strategy receives the high priority key list. -/
def resolveSpecGo (doc : Document) (cfg : Config) (web : Web) :
    List String → Except PyExn ResultDict
  | [] => .ok { identifier := none, identifier_type := none,
                validation_info := PyVal.pynone, path := doc.name, method := "" }
  | [m] => find_identifier doc m (validate cfg web) cfg web
      (if m = "document_infos" then mainKeysToCheckFirst else [])
  | m :: rest =>
    match find_identifier doc m (validate cfg web) cfg web
        (if m = "document_infos" then mainKeysToCheckFirst else []) with
    | .error e => .error e
    | .ok r => if identifierTruthy r.identifier then .ok r
               else resolveSpecGo doc cfg web rest

/-! ## The metadata write of add_found_identifier_to_metadata -/

/-- The metadata key written by add_found_identifier_to_metadata
(pdf2doi/finders.py line 465). -/
def identifier_metadata_key : String := "/identifier"

/-- Overwrite-or-append of a key in the info dictionary. -/
def metaSet (m : List (String × TextItem)) (k : String) (v : TextItem) :
    List (String × TextItem) :=
  if m.any (fun kv => kv.1 = k) then
    m.map (fun kv => if kv.1 = k then (kv.1, v) else kv)
  else m ++ [(k, v)]

/-- The single-file branch of add_found_identifier_to_metadata of
pdf2doi/finders.py, restricted to its effect on the document metadata: the
pre-existing metadata is copied (a failure to copy it is swallowed by the
inner try) and the identifier is stored under the key /identifier. The file
system error paths of the source return False without touching the file and
are outside the embedded state. -/
def add_found_identifier_to_metadata (doc : Document) (identifier : String) : Document :=
  { doc with
    infoResult := PyResult.ok (metaSet
      (match doc.infoResult with | .raise => [] | .ok m => m)
      identifier_metadata_key (TextItem.str identifier)) }

/-! ## Concrete scenario fixtures

Documents, configurations and network oracles used to evaluate the claims at
concrete inputs. -/

/-- A network whose searches return no results, whose fetches return empty
pages and whose validation endpoints are unreachable. -/
def quiet_web : Web :=
  { dxdoi := fun _ _ => HttpResp.raise,
    arxivFeed := fun _ => PyResult.raise,
    googleSearch := fun _ _ => PyResult.ok [],
    httpGet := fun _ => PyResult.ok "" }

/-- A network on which every dx.doi.org attempt answers with status 503 and
an empty body: a sustained transient failure. -/
def web_all_503 : Web := { quiet_web with dxdoi := fun _ _ => HttpResp.resp 503 "" }

/-- The default configuration with online validation switched off. -/
def cfg_noweb : Config := { default_config with webvalidation := false }

/-- The scenario document of the testable-properties section: a file named
2407.03393.pdf with empty metadata and no extractable text. -/
def doc_arxiv_2407 : Document :=
  { name := "2407.03393.pdf", infoResult := PyResult.ok [],
    pypdfPages := PyResult.ok [], textract1 := PyResult.raise,
    textract2 := PyResult.raise, pdftitleResult := PyResult.ok (TextItem.str "") }

/-- The text of the normalisation scenario. -/
def einstein_text : String := "DOI: 10.1103/PhysRev.47.777 Can Quantum Mechanical..."

/-- A document whose page text is the normalisation scenario text. -/
def doc_einstein : Document :=
  { name := "paper.pdf", infoResult := PyResult.ok [],
    pypdfPages := PyResult.ok [einstein_text], textract1 := PyResult.raise,
    textract2 := PyResult.raise, pdftitleResult := PyResult.ok (TextItem.str "") }

/-- The scenario document whose only content is the string foo. -/
def doc_foo : Document :=
  { name := "foo.pdf", infoResult := PyResult.ok [],
    pypdfPages := PyResult.ok ["foo"], textract1 := PyResult.ok "foo",
    textract2 := PyResult.raise, pdftitleResult := PyResult.ok (TextItem.str "") }

/-- A document whose metadata carries a bytes value that does not decode as
UTF-8 (PyPDF2 returns such values as ByteStringObject entries). -/
def doc_bad_bytes : Document :=
  { name := "paper.pdf", infoResult := PyResult.ok [("/title", TextItem.bytes false "")],
    pypdfPages := PyResult.ok [], textract1 := PyResult.raise,
    textract2 := PyResult.raise, pdftitleResult := PyResult.ok (TextItem.str "") }

/-- A document whose metadata holds one valid doi under a key checked in
natural order before the write-back key, and another valid doi under the
write-back key /identifier. -/
def doc_meta_natural : Document :=
  { name := "paper.pdf",
    infoResult := PyResult.ok
      [("/aaa", TextItem.str "10.1000/aaa"), ("/identifier", TextItem.str "10.1000/bbb")],
    pypdfPages := PyResult.ok [], textract1 := PyResult.raise,
    textract2 := PyResult.raise, pdftitleResult := PyResult.ok (TextItem.str "") }

/-- A document whose metadata holds one valid doi under the high priority
key /doi and another valid doi under the write-back key /identifier. -/
def doc_meta_priority : Document :=
  { name := "paper.pdf",
    infoResult := PyResult.ok
      [("/doi", TextItem.str "10.1000/aaa"), ("/identifier", TextItem.str "10.1000/bbb")],
    pypdfPages := PyResult.ok [], textract1 := PyResult.raise,
    textract2 := PyResult.raise, pdftitleResult := PyResult.ok (TextItem.str "") }

/-- A document whose metadata holds a valid doi under the write-back key
/identifier and nothing else. -/
def doc_meta_writeback : Document :=
  { name := "paper.pdf",
    infoResult := PyResult.ok [("/identifier", TextItem.str "10.1000/bbb")],
    pypdfPages := PyResult.ok [], textract1 := PyResult.raise,
    textract2 := PyResult.raise, pdftitleResult := PyResult.ok (TextItem.str "") }

/-- The name formed by joining a list of dot-separated pieces back with
dots: used to state which prefixes of a file name the filename strategy
scans. -/
def dotJoin : List Str → Str
  | [] => []
  | p :: ps => p ++ (ps.map (fun q => '.' :: q)).flatten

/-- A text item that does not raise when decoded at the head of the scan of
find_identifier_in_text. -/
def itemClean : TextItem → Bool
  | TextItem.bytes false _ => false
  | _ => true

/-- A document whose collaborators only hand decoded strings to the
finders: its metadata values decode, and the raw-bytes textract fallback is
not engaged. -/
def cleanDoc (doc : Document) : Prop :=
  (∀ m, doc.infoResult = PyResult.ok m → ∀ kv ∈ m, itemClean kv.2 = true) ∧
  doc.textract2 = PyResult.raise

/-! # Lemmas about the matcher combinators -/

theorem mCls_eq_some {α : Type} {p : Char → Bool} {s : Str} {k : Str → Option α}
    {r : α} (h : mCls p s k = some r) :
    ∃ c t, s = c :: t ∧ p c = true ∧ k t = some r := by
  cases s with
  | nil => simp [mCls] at h
  | cons c t =>
    by_cases hp : p c = true
    · exact ⟨c, t, rfl, hp, by simpa [mCls, hp] using h⟩
    · simp [mCls, hp] at h

theorem mCls_cons {α : Type} {p : Char → Bool} {c : Char} {t : Str}
    {k : Str → Option α} (hp : p c = true) : mCls p (c :: t) k = k t := by
  simp [mCls, hp]

theorem mAlt_eq_some {α : Type} {m1 m2 : Mt α} {s : Str} {k : Str → Option α}
    {r : α} (h : mAlt m1 m2 s k = some r) :
    m1 s k = some r ∨ m2 s k = some r := by
  unfold mAlt at h
  cases h1 : m1 s k with
  | some v => rw [h1] at h; exact Or.inl h
  | none => rw [h1] at h; exact Or.inr h

theorem mAlt_of_left {α : Type} {m1 m2 : Mt α} {s : Str} {k : Str → Option α}
    {r : α} (h : m1 s k = some r) : mAlt m1 m2 s k = some r := by
  unfold mAlt; rw [h]

theorem mOpt_eq_some {α : Type} {m : Mt α} {s : Str} {k : Str → Option α}
    {r : α} (h : mOpt m s k = some r) :
    m s k = some r ∨ k s = some r := by
  unfold mOpt at h
  cases h1 : m s k with
  | some v => rw [h1] at h; exact Or.inl h
  | none => rw [h1] at h; exact Or.inr h

theorem mOpt_of_none {α : Type} {m : Mt α} {s : Str} {k : Str → Option α}
    (h : m s k = none) : mOpt m s k = k s := by
  unfold mOpt; rw [h]

theorem mRep_nil {α : Type} {p : Char → Bool} {lo hi : Nat} {k : Str → Option α} :
    mRep p lo hi [] k = if lo = 0 then k [] else none := by
  cases hi <;> simp [mRep]

theorem mRep_cons {α : Type} {p : Char → Bool} {lo n : Nat} {c : Char} {t : Str}
    {k : Str → Option α} :
    mRep p lo (n + 1) (c :: t) k =
      if p c then
        match mRep p (lo - 1) n t k with
        | some r => some r
        | none => if lo = 0 then k (c :: t) else none
      else if lo = 0 then k (c :: t) else none := rfl

theorem mRep_eq_some {α : Type} {p : Char → Bool} {hi : Nat} :
    ∀ {lo : Nat} {s : Str} {k : Str → Option α} {r : α},
    mRep p lo hi s k = some r →
    ∃ pre t, s = pre ++ t ∧ (∀ c ∈ pre, p c = true) ∧ lo ≤ pre.length ∧
      pre.length ≤ hi ∧ k t = some r := by
  induction hi with
  | zero =>
    intro lo s k r h
    rw [show mRep p lo 0 s k = if lo = 0 then k s else none from rfl] at h
    by_cases hlo : lo = 0
    · rw [if_pos hlo] at h
      exact ⟨[], s, rfl, by simp, by omega, by simp, h⟩
    · rw [if_neg hlo] at h; exact Option.noConfusion h
  | succ n ih =>
    intro lo s k r h
    cases s with
    | nil =>
      rw [mRep_nil] at h
      by_cases hlo : lo = 0
      · rw [if_pos hlo] at h
        exact ⟨[], [], rfl, by simp, by omega, by simp, h⟩
      · rw [if_neg hlo] at h; exact Option.noConfusion h
    | cons c t =>
      rw [mRep_cons] at h
      cases hp : p c with
      | true =>
        rw [if_pos (by simp [hp])] at h
        cases hrec : mRep p (lo - 1) n t k with
        | some v =>
          rw [hrec] at h
          have hv : v = r := Option.some.inj h
          subst hv
          obtain ⟨pre, t2, ht, hall, hlo2, hhi2, hk⟩ := ih hrec
          refine ⟨c :: pre, t2, by simp [ht], ?_, ?_, ?_, hk⟩
          · intro x hx
            rcases List.mem_cons.mp hx with hx | hx
            · exact hx ▸ hp
            · exact hall x hx
          · simp only [List.length_cons]; omega
          · simp only [List.length_cons]; omega
        | none =>
          rw [hrec] at h
          have h2 : (if lo = 0 then k (c :: t) else none) = some r := h
          by_cases hlo : lo = 0
          · rw [if_pos hlo] at h2
            exact ⟨[], c :: t, rfl, by simp, by omega, by simp, h2⟩
          · rw [if_neg hlo] at h2; exact Option.noConfusion h2
      | false =>
        rw [if_neg (by simp [hp])] at h
        by_cases hlo : lo = 0
        · rw [if_pos hlo] at h
          exact ⟨[], c :: t, rfl, by simp, by omega, by simp, h⟩
        · rw [if_neg hlo] at h; exact Option.noConfusion h

/-- Forward computation of a greedy repetition that stops exactly at a
character outside the class, with a succeeding continuation. -/
theorem mRep_stop {α : Type} {p : Char → Bool} {c : Char} {rest : Str} {pre : Str} :
    ∀ {lo hi : Nat} {k : Str → Option α} {r : α},
    (∀ x ∈ pre, p x = true) → p c = false → lo ≤ pre.length → pre.length ≤ hi →
    k (c :: rest) = some r →
    mRep p lo hi (pre ++ c :: rest) k = some r := by
  induction pre with
  | nil =>
    intro lo hi k r _ hc hlo _ hk
    have hlo0 : lo = 0 := by simpa using hlo
    subst hlo0
    cases hi with
    | zero =>
      rw [List.nil_append]
      rw [show mRep p 0 0 (c :: rest) k = if (0 : Nat) = 0 then k (c :: rest) else none
            from rfl]
      simpa using hk
    | succ n =>
      rw [List.nil_append, mRep_cons, if_neg (by simp [hc])]
      simpa using hk
  | cons a pre ih =>
    intro lo hi k r hall hc hlo hhi hk
    have ha : p a = true := hall a (by simp)
    cases hi with
    | zero => simp at hhi
    | succ n =>
      have hrec : mRep p (lo - 1) n (pre ++ c :: rest) k = some r :=
        ih (fun x hx => hall x (by simp [hx])) hc (by
          simp only [List.length_cons] at hlo; omega) (by
          simpa using hhi) hk
      rw [List.cons_append, mRep_cons, if_pos (by simp [ha]), hrec]

/-- Forward computation of a greedy repetition over the whole rest of the
input that has to give back exactly one character for the continuation. -/
theorem mRep_back_one {α : Type} {p : Char → Bool} {a : Char} {pre : Str} :
    ∀ {lo hi : Nat} {k : Str → Option α} {r : α},
    (∀ x ∈ pre, p x = true) → p a = true → lo ≤ pre.length → pre.length + 1 ≤ hi →
    k [] = none → k [a] = some r →
    mRep p lo hi (pre ++ [a]) k = some r := by
  induction pre with
  | nil =>
    intro lo hi k r _ ha hlo hhi hk0 hk1
    have hlo0 : lo = 0 := by simpa using hlo
    subst hlo0
    cases hi with
    | zero => simp at hhi
    | succ n =>
      rw [List.nil_append, mRep_cons, if_pos (by simp [ha])]
      have hnil : mRep p (0 - 1) n ([] : Str) k = none := by
        rw [mRep_nil]; simpa using hk0
      rw [hnil]
      simpa using hk1
  | cons b pre ih =>
    intro lo hi k r hall ha hlo hhi hk0 hk1
    have hb : p b = true := hall b (by simp)
    cases hi with
    | zero => simp at hhi
    | succ n =>
      have hrec : mRep p (lo - 1) n (pre ++ [a]) k = some r :=
        ih (fun x hx => hall x (by simp [hx])) ha (by
          simp only [List.length_cons] at hlo; omega) (by
          simpa using hhi) hk0 hk1
      rw [List.cons_append, mRep_cons, if_pos (by simp [hb]), hrec]

theorem takeDiff_append (pre t : Str) : takeDiff (pre ++ t) t = pre := by
  simp [takeDiff, List.length_append, List.take_left]

theorem takeDiff_nil (s : Str) : takeDiff s [] = s := by
  simp [takeDiff]

theorem mCls_eq_none_nil {α : Type} {p : Char → Bool} {k : Str → Option α} :
    mCls p [] k = none := rfl

theorem mDollarM_eq_some {α : Type} {s : Str} {k : Str → Option α} {r : α}
    (h : mDollarM s k = some r) : ∃ t, k t = some r := by
  unfold mDollarM at h
  split at h
  · exact ⟨[], h⟩
  · exact ⟨_, h⟩
  · exact Option.noConfusion h

theorem mDollar_eq_some {α : Type} {s : Str} {k : Str → Option α} {r : α}
    (h : mDollar s k = some r) : ∃ t, k t = some r := by
  unfold mDollar at h
  split at h
  · exact ⟨[], h⟩
  · exact ⟨_, h⟩
  · exact Option.noConfusion h

theorem mLit_eq_some {α : Type} {cs : Str} :
    ∀ {s : Str} {k : Str → Option α} {r : α},
    mLit cs s k = some r → ∃ t, k t = some r := by
  induction cs with
  | nil => intro s k r h; exact ⟨s, h⟩
  | cons c cs ih =>
    intro s k r h
    have h2 : mCls (fun x => x = c) s (fun t => mLit cs t k) = some r := h
    obtain ⟨c0, t, _, _, hk⟩ := mCls_eq_some h2
    exact ih hk

/-! # Character class facts -/

theorem toLower_eq_self {c : Char} (h : c.toNat < 65 ∨ 90 < c.toNat) :
    c.toLower = c := by
  show (if c.toNat ≥ 65 ∧ c.toNat ≤ 90 then Char.ofNat (c.toNat + 32) else c) = c
  rw [if_neg (by omega)]

theorem isPyDigit_toNat {c : Char} (h : isPyDigit c = true) :
    48 ≤ c.toNat ∧ c.toNat ≤ 57 := by
  simpa [isPyDigit, Bool.and_eq_true, decide_eq_true_eq] using h

theorem isLowerAZ_toNat {c : Char} (h : isLowerAZ c = true) :
    97 ≤ c.toNat ∧ c.toNat ≤ 122 := by
  simpa [isLowerAZ, Bool.and_eq_true, decide_eq_true_eq] using h

theorem isPyDigit_toLower {c : Char} (h : isPyDigit c = true) : c.toLower = c :=
  toLower_eq_self (Or.inl (by have := isPyDigit_toNat h; omega))

theorem isSuffixChar_toLower {c : Char} (h : isSuffixChar c = true) :
    c.toLower = c := by
  simp only [isSuffixChar, Bool.or_eq_true, decide_eq_true_eq] at h
  rcases h with ((((((((h | h) | h) | h) | h) | h) | h) | h) | h) | h
  · exact h ▸ (by decide)
  · exact h ▸ (by decide)
  · exact h ▸ (by decide)
  · exact h ▸ (by decide)
  · exact h ▸ (by decide)
  · exact h ▸ (by decide)
  · exact h ▸ (by decide)
  · exact h ▸ (by decide)
  · exact toLower_eq_self (Or.inr (by have := isLowerAZ_toNat h; omega))
  · exact isPyDigit_toLower h

theorem isSuffixEnd_isSuffixChar {c : Char} (h : isSuffixEnd c = true) :
    isSuffixChar c = true := by
  simp only [isSuffixEnd, Bool.or_eq_true] at h
  simp only [isSuffixChar, Bool.or_eq_true]
  tauto

theorem strLower_of_fixed {l : Str} (h : ∀ c ∈ l, c.toLower = c) :
    strLower l = l := by
  unfold strLower
  rw [List.map_congr_left h]
  exact List.map_id' l

/-! # The shape of the captures of the verbose DOI pattern -/

theorem dvTrail_eq_some {s0 r0 sfx0 : Str} {s5 : Str} {out : (Str × Str) × Nat}
    (h : dvTrail s0 r0 sfx0 s5 = some out) : out.1.1 = r0 ∧ out.1.2 = sfx0 := by
  unfold dvTrail at h
  rcases mAlt_eq_some h with h | h
  · obtain ⟨c, t, _, _, hk⟩ := mCls_eq_some h
    have := Option.some.inj hk
    simp [← this]
  · obtain ⟨t, hk⟩ := mDollarM_eq_some h
    have := Option.some.inj hk
    simp [← this]

theorem dvSuffix_shape {s0 r0 : Str} {s4 : Str} {out : (Str × Str) × Nat}
    (h : dvSuffix s0 r0 s4 = some out) :
    out.1.1 = r0 ∧ (∀ c ∈ out.1.2, isSuffixChar c = true) ∧ 2 ≤ out.1.2.length ∧
    ∃ w a, out.1.2 = w ++ [a] ∧ isSuffixEnd a = true ∧ 1 ≤ w.length := by
  unfold dvSuffix at h
  have h2 : mPlus isSuffixChar s4
      (fun s4b => mCls isSuffixEnd s4b
        (fun s5 => dvTrail s0 r0 (takeDiff s4 s5) s5)) = some out := h
  unfold mPlus at h2
  obtain ⟨pre, t, hs4, hall, hlo, _, hk⟩ := mRep_eq_some h2
  obtain ⟨a, t2, ht, ha, hk2⟩ := mCls_eq_some hk
  obtain ⟨hr, hsfx⟩ := dvTrail_eq_some hk2
  have hcap : takeDiff s4 t2 = pre ++ [a] := by
    have : s4 = (pre ++ [a]) ++ t2 := by simp [hs4, ht]
    rw [this, takeDiff_append]
  rw [hcap] at hsfx
  refine ⟨hr, ?_, ?_, pre, a, hsfx, ha, hlo⟩
  · intro c hc
    rw [hsfx] at hc
    rcases List.mem_append.mp hc with hc | hc
    · exact hall c hc
    · rw [List.mem_singleton.mp hc]
      exact isSuffixEnd_isSuffixChar ha
  · rw [hsfx]
    simp only [List.length_append, List.length_singleton]
    omega

theorem doiVerbAt_shape {s : Str} {out : (Str × Str) × Nat}
    (h : doiVerbAt s = some out) :
    (∀ c ∈ out.1.1, isPyDigit c = true) ∧ 2 ≤ out.1.1.length ∧ out.1.1.length ≤ 9 ∧
    (∀ c ∈ out.1.2, isSuffixChar c = true) ∧ 2 ≤ out.1.2.length ∧
    ∃ w a, out.1.2 = w ++ [a] ∧ isSuffixEnd a = true ∧ 1 ≤ w.length := by
  unfold doiVerbAt at h
  have hbody : ∃ s1, dvBody s s1 = some out := by
    rcases mOpt_eq_some h with h | h
    · have h2 : mLit ['d', 'o', 'i'] s
          (fun t => mRep isMarkerSep 0 3 t (fun s1 => dvBody s s1)) = some out := h
      obtain ⟨t, hk⟩ := mLit_eq_some h2
      obtain ⟨_, t2, _, _, _, _, hk2⟩ := mRep_eq_some hk
      exact ⟨t2, hk2⟩
    · exact ⟨s, h⟩
  obtain ⟨s1, hbody⟩ := hbody
  unfold dvBody at hbody
  have h3 : mLit ['1', '0'] s1
      (fun t => mCls (fun x => x = '.') t (fun s2 => dvReg s s2)) = some out := hbody
  obtain ⟨t, hk⟩ := mLit_eq_some h3
  obtain ⟨_, s2, _, _, hk2⟩ := mCls_eq_some hk
  unfold dvReg at hk2
  obtain ⟨pre, t3, hs2, hall, hlo, hhi, hk3⟩ := mRep_eq_some hk2
  have hcap : takeDiff s2 t3 = pre := by rw [hs2, takeDiff_append]
  rw [hcap] at hk3
  unfold dvSep at hk3
  obtain ⟨_, s4, _, _, hk4⟩ := mCls_eq_some hk3
  obtain ⟨hreg, hsuf⟩ := dvSuffix_shape hk4
  rw [hreg]
  exact ⟨hall, by omega, by omega, hsuf⟩

/-! # The verbose DOI pattern on a canonical string -/

theorem doiVerbAt_canonical {r w : Str} {a : Char}
    (hrall : ∀ c ∈ r, isPyDigit c = true) (hr2 : 2 ≤ r.length) (hr9 : r.length ≤ 9)
    (hwall : ∀ c ∈ w, isSuffixChar c = true) (ha : isSuffixEnd a = true)
    (hw1 : 1 ≤ w.length) :
    doiVerbAt ('1' :: '0' :: '.' :: (r ++ '/' :: (w ++ [a]))) =
      some ((r, w ++ [a]), ('1' :: '0' :: '.' :: (r ++ '/' :: (w ++ [a]))).length) := by
  have hmark : (mSeq (mLit ['d', 'o', 'i']) (mRep isMarkerSep 0 3) :
      Mt ((Str × Str) × Nat)) ('1' :: '0' :: '.' :: (r ++ '/' :: (w ++ [a])))
      (fun s1 => dvBody ('1' :: '0' :: '.' :: (r ++ '/' :: (w ++ [a]))) s1) = none := rfl
  unfold doiVerbAt
  rw [mOpt_of_none hmark]
  show dvReg ('1' :: '0' :: '.' :: (r ++ '/' :: (w ++ [a]))) (r ++ '/' :: (w ++ [a])) =
    some ((r, w ++ [a]), ('1' :: '0' :: '.' :: (r ++ '/' :: (w ++ [a]))).length)
  unfold dvReg
  refine mRep_stop hrall (by decide) hr2 hr9 ?_
  rw [takeDiff_append]
  show dvSep ('1' :: '0' :: '.' :: (r ++ '/' :: (w ++ [a]))) r ('/' :: (w ++ [a])) =
    some ((r, w ++ [a]), ('1' :: '0' :: '.' :: (r ++ '/' :: (w ++ [a]))).length)
  unfold dvSep
  rw [mCls_cons (by decide)]
  show dvSuffix ('1' :: '0' :: '.' :: (r ++ '/' :: (w ++ [a]))) r (w ++ [a]) =
    some ((r, w ++ [a]), ('1' :: '0' :: '.' :: (r ++ '/' :: (w ++ [a]))).length)
  unfold dvSuffix
  show mPlus isSuffixChar (w ++ [a])
      (fun s4b => mCls isSuffixEnd s4b
        (fun s5 => dvTrail ('1' :: '0' :: '.' :: (r ++ '/' :: (w ++ [a]))) r
          (takeDiff (w ++ [a]) s5) s5)) =
    some ((r, w ++ [a]), ('1' :: '0' :: '.' :: (r ++ '/' :: (w ++ [a]))).length)
  unfold mPlus
  refine mRep_back_one hwall (isSuffixEnd_isSuffixChar ha) hw1 (by simp) rfl ?_
  rw [mCls_cons ha, takeDiff_nil]
  show dvTrail ('1' :: '0' :: '.' :: (r ++ '/' :: (w ++ [a]))) r (w ++ [a]) [] =
    some ((r, w ++ [a]), ('1' :: '0' :: '.' :: (r ++ '/' :: (w ++ [a]))).length)
  unfold dvTrail
  show mAlt (mCls isVerbTrail) mDollarM ([] : Str)
      (fun s6 => some ((r, w ++ [a]),
        ('1' :: '0' :: '.' :: (r ++ '/' :: (w ++ [a]))).length - s6.length)) =
    some ((r, w ++ [a]), ('1' :: '0' :: '.' :: (r ++ '/' :: (w ++ [a]))).length)
  unfold mAlt
  rw [mCls_eq_none_nil]
  show some ((r, w ++ [a]),
      ('1' :: '0' :: '.' :: (r ++ '/' :: (w ++ [a]))).length - 0) = _
  rw [Nat.sub_zero]

/-! # Scan driver lemmas -/

theorem reFindGo_nil_eq {β : Type} {mA : Bool → Str → Option (β × Nat)}
    {fuel : Nat} {st : Bool} :
    reFindGo mA (fuel + 1) st [] =
      (match mA st [] with
        | some (g1, _) => [g1]
        | none => []) := rfl

theorem reFindGo_cons_eq {β : Type} {mA : Bool → Str → Option (β × Nat)}
    {fuel : Nat} {st : Bool} {c : Char} {t : Str} :
    reFindGo mA (fuel + 1) st (c :: t) =
      (match mA st (c :: t) with
        | some (g1, n1) =>
          if n1 = 0 then g1 :: reFindGo mA fuel false t
          else g1 :: reFindGo mA fuel false ((c :: t).drop n1)
        | none => reFindGo mA fuel false t) := rfl

/-- Every value collected by the scan driver arises from a successful match
attempt. -/
theorem reFindGo_mem {β : Type} {mA : Bool → Str → Option (β × Nat)} :
    ∀ {fuel : Nat} {st : Bool} {s : Str} {g : β},
    g ∈ reFindGo mA fuel st s → ∃ st2 s2 n, mA st2 s2 = some (g, n) := by
  intro fuel
  induction fuel with
  | zero => intro st s g h; simp [reFindGo] at h
  | succ n ih =>
    intro st s g h
    cases s with
    | nil =>
      rw [reFindGo_nil_eq] at h
      cases hm : mA st ([] : Str) with
      | some gn =>
        obtain ⟨g1, n1⟩ := gn
        rw [hm] at h
        have hg : g = g1 := by simpa using h
        exact ⟨st, [], n1, by rw [hm, hg]⟩
      | none => rw [hm] at h; simp at h
    | cons c t =>
      rw [reFindGo_cons_eq] at h
      cases hm : mA st (c :: t) with
      | some gn =>
        obtain ⟨g1, n1⟩ := gn
        rw [hm] at h
        have h2 : g ∈ (if n1 = 0 then g1 :: reFindGo mA n false t
            else g1 :: reFindGo mA n false ((c :: t).drop n1)) := h
        by_cases hn : n1 = 0
        · rw [if_pos hn] at h2
          rcases List.mem_cons.mp h2 with hg | h3
          · exact ⟨st, c :: t, n1, by rw [hm, hg]⟩
          · exact ih h3
        · rw [if_neg hn] at h2
          rcases List.mem_cons.mp h2 with hg | h3
          · exact ⟨st, c :: t, n1, by rw [hm, hg]⟩
          · exact ih h3
      | none =>
        rw [hm] at h
        exact ih h

/-- When the pattern matches at the start of the input and consumes all of
it, and fails on the empty input, the scan yields exactly that match. -/
theorem reFindGo_full {β : Type} {mA : Bool → Str → Option (β × Nat)} {c : Char}
    {t : Str} {g : β} (hm : mA true (c :: t) = some (g, (c :: t).length))
    (hnil : mA false [] = none) (fuel : Nat) :
    reFindGo mA (fuel + 2) true (c :: t) = [g] := by
  rw [show (fuel + 2) = (fuel + 1) + 1 from rfl, reFindGo_cons_eq, hm]
  show (if (c :: t).length = 0 then g :: reFindGo mA (fuel + 1) false t
      else g :: reFindGo mA (fuel + 1) false ((c :: t).drop (c :: t).length)) = [g]
  rw [if_neg (by simp), List.drop_length]
  rw [reFindGo_nil_eq, hnil]

theorem DOI_finditer_canonical {r w : Str} {a : Char}
    (hrall : ∀ c ∈ r, isPyDigit c = true) (hr2 : 2 ≤ r.length) (hr9 : r.length ≤ 9)
    (hwall : ∀ c ∈ w, isSuffixChar c = true) (ha : isSuffixEnd a = true)
    (hw1 : 1 ≤ w.length) :
    DOI_finditer ('1' :: '0' :: '.' :: (r ++ '/' :: (w ++ [a]))) = [(r, w ++ [a])] := by
  unfold DOI_finditer reFindAll
  have hlen : ('1' :: '0' :: '.' :: (r ++ '/' :: (w ++ [a]))).length + 1 =
      (('0' :: '.' :: (r ++ '/' :: (w ++ [a]))).length + 1) + 1 := by
    simp
  rw [hlen]
  exact reFindGo_full (doiVerbAt_canonical hrall hr2 hr9 hwall ha hw1) rfl _

/-! # Properties of standardise_doi -/

theorem standardise_doi_eq {x y : String} (h : standardise_doi x = some y) :
    ∃ r sfx, (DOI_finditer (strLower x.toList)).getLast? = some (r, sfx) ∧
      y = String.mk ('1' :: '0' :: '.' :: (r ++ '/' :: sfx)) := by
  unfold standardise_doi at h
  cases hl : (DOI_finditer (strLower x.toList)).getLast? with
  | none => rw [hl] at h; exact Option.noConfusion h
  | some p =>
    obtain ⟨r, sfx⟩ := p
    rw [hl] at h
    exact ⟨r, sfx, rfl, (Option.some.inj h).symm⟩

/-- Every output of standardise_doi is the canonical string of a registrant
and a suffix with the shapes forced by the verbose DOI pattern. -/
theorem standardise_doi_shape {x y : String} (h : standardise_doi x = some y) :
    ∃ r w a, y = String.mk ('1' :: '0' :: '.' :: (r ++ '/' :: (w ++ [a]))) ∧
      (∀ c ∈ r, isPyDigit c = true) ∧ 2 ≤ r.length ∧ r.length ≤ 9 ∧
      (∀ c ∈ w, isSuffixChar c = true) ∧ isSuffixEnd a = true ∧ 1 ≤ w.length := by
  obtain ⟨r, sfx, hlast, hy⟩ := standardise_doi_eq h
  have hmem : (r, sfx) ∈ DOI_finditer (strLower x.toList) :=
    List.mem_of_getLast?_eq_some hlast
  obtain ⟨st2, s2, n, hAt⟩ := reFindGo_mem hmem
  obtain ⟨hrall0, hr20, hr90, hsall0, _, w, a, hsfx0, ha, hw1⟩ := doiVerbAt_shape hAt
  have hrall : ∀ c ∈ r, isPyDigit c = true := hrall0
  have hr2 : 2 ≤ r.length := hr20
  have hr9 : r.length ≤ 9 := hr90
  have hsall : ∀ c ∈ sfx, isSuffixChar c = true := hsall0
  have hsfx : sfx = w ++ [a] := hsfx0
  refine ⟨r, w, a, by rw [hy, hsfx], hrall, hr2, hr9, ?_, ha, hw1⟩
  intro c hc
  exact hsall c (by rw [hsfx]; exact List.mem_append.mpr (Or.inl hc))

/-- standardise_doi is the identity on the canonical strings it produces. -/
theorem standardise_doi_canonical_fixed {r w : Str} {a : Char}
    (hrall : ∀ c ∈ r, isPyDigit c = true) (hr2 : 2 ≤ r.length) (hr9 : r.length ≤ 9)
    (hwall : ∀ c ∈ w, isSuffixChar c = true) (ha : isSuffixEnd a = true)
    (hw1 : 1 ≤ w.length) :
    standardise_doi (String.mk ('1' :: '0' :: '.' :: (r ++ '/' :: (w ++ [a])))) =
      some (String.mk ('1' :: '0' :: '.' :: (r ++ '/' :: (w ++ [a])))) := by
  unfold standardise_doi
  have htl : (String.mk ('1' :: '0' :: '.' :: (r ++ '/' :: (w ++ [a])))).toList =
      '1' :: '0' :: '.' :: (r ++ '/' :: (w ++ [a])) := rfl
  rw [htl]
  have hfix : strLower ('1' :: '0' :: '.' :: (r ++ '/' :: (w ++ [a]))) =
      '1' :: '0' :: '.' :: (r ++ '/' :: (w ++ [a])) := by
    refine strLower_of_fixed ?_
    intro c hc
    simp only [List.mem_cons, List.mem_append, List.mem_singleton] at hc
    rcases hc with rfl | rfl | rfl | hc | rfl | hc | rfl | hc
    · decide
    · decide
    · decide
    · exact isPyDigit_toLower (hrall c hc)
    · decide
    · exact isSuffixChar_toLower (hwall c hc)
    · exact isSuffixChar_toLower (isSuffixEnd_isSuffixChar ha)
    · simp at hc
  rw [hfix, DOI_finditer_canonical hrall hr2 hr9 hwall ha hw1]
  rfl

/-- C5: whenever standardise_doi accepts a string, its output is a fixed
point of standardise_doi. -/
theorem claim_C5_standardise_doi_idempotent (x y : String)
    (h : standardise_doi x = some y) : standardise_doi y = some y := by
  obtain ⟨r, w, a, hy, hrall, hr2, hr9, hwall, ha, hw1⟩ := standardise_doi_shape h
  subst hy
  exact standardise_doi_canonical_fixed hrall hr2 hr9 hwall ha hw1

/-- Witness for C5 at a concrete input. -/
theorem claim_C5_witness :
    standardise_doi "doi:10.1000/ab" = some "10.1000/ab" ∧
    standardise_doi "10.1000/ab" = some "10.1000/ab" :=
  ⟨by rfl, claim_C5_standardise_doi_idempotent "doi:10.1000/ab" "10.1000/ab" (by rfl)⟩

/-! # Claim C1: the write-back of a confirmed identifier never happens

The resolution pipeline (find_identifier and pdf2doi_singlefile) contains no
call of add_found_identifier_to_metadata, although the docstring of
find_identifier and the command line help promise the write unless
save_identifier_metadata is disabled; only the separate -id command path
invokes it. The theorem evaluates the pipeline at the failing input: the
identifier is confirmed by the filename strategy with write-back enabled,
yet a metadata pass on the document still finds nothing, while a metadata
pass on the document that add_found_identifier_to_metadata would have
produced recovers the identifier in one step. -/
theorem claim_C1_no_writeback :
    cfg_noweb.save_identifier_metadata = true ∧
    pdf2doi_singlefile doc_arxiv_2407 cfg_noweb quiet_web =
      Except.ok { identifier := some "2407.03393", identifier_type := some "arxiv ID",
                  validation_info := PyVal.pybool true, path := "2407.03393.pdf",
                  method := "filename" } ∧
    find_identifier_in_pdf_info doc_arxiv_2407 (validate cfg_noweb quiet_web)
      mainKeysToCheckFirst = Except.ok none ∧
    find_identifier_in_pdf_info (add_found_identifier_to_metadata doc_arxiv_2407
        "2407.03393") (validate cfg_noweb quiet_web) mainKeysToCheckFirst =
      Except.ok (some ("2407.03393", "arxiv ID", PyVal.pybool true)) :=
  ⟨rfl, rfl, rfl, rfl⟩

/-! # Claim C2: exhausting the retry budget is reported as not-found

validate_doi_web performs exactly ten attempts on a sustained transient
failure and then falls out of its while loop, implicitly returning None,
the value its docstring reserves for a definitive not-found answer from
dx.doi.org; validate in turn maps that None to False, a rejection, instead
of the None (indeterminate) reserved for connection problems. -/
theorem claim_C2_retry_exhaustion_rejects :
    validate_doi_web web_all_503 "10.1000/xyz" default_config.method_dxdoiorg =
      (DoiWebOutcome.notFound, 10) ∧
    validate default_config web_all_503 "10.1000/xyz" "doi" = PyVal.pybool false ∧
    validate default_config web_all_503 "10.1000/xyz" "doi" ≠ PyVal.pynone :=
  ⟨rfl, rfl, by decide⟩

/-! # Claim C4: the pipeline returns the raw matched candidate -/

/-- Counterexample to C4: on the normalisation scenario text the pipeline
returns the candidate exactly as matched, with its original upper case
letters, not the normalised lowercase form. -/
theorem claim_C4_counterexample :
    pdf2doi_singlefile doc_einstein cfg_noweb quiet_web =
      Except.ok { identifier := some "10.1103/PhysRev.47.777",
                  identifier_type := some "DOI",
                  validation_info := PyVal.pybool true, path := "paper.pdf",
                  method := "document_text" } ∧
    some "10.1103/PhysRev.47.777" ≠ some "10.1103/physrev.47.777" :=
  ⟨rfl, by decide⟩

/-- C4 as amended: the identifier entry of the result is the raw candidate
produced by the strict matcher variant, and normalisation to the lowercase
slash-separated form happens only inside validation (standardise_doi). -/
theorem claim_C4_raw_candidate :
    extract_doi_from_text (TextItem.str einstein_text) 0 = ["10.1103/PhysRev.47.777"] ∧
    pdf2doi_singlefile doc_einstein cfg_noweb quiet_web =
      Except.ok { identifier := some "10.1103/PhysRev.47.777",
                  identifier_type := some "DOI",
                  validation_info := PyVal.pybool true, path := "paper.pdf",
                  method := "document_text" } ∧
    standardise_doi "10.1103/PhysRev.47.777" = some "10.1103/physrev.47.777" :=
  ⟨rfl, rfl, rfl⟩

/-! # Claim C7: the write-back key is not among the priority keys

The priority key list of pdf2doi/main.py is the literal list containing
/doi and the misspelling /identfier; the write-back key /identifier is
therefore checked only at its natural position, and a valid identifier
under an earlier natural-order key wins against the stored one. -/
theorem claim_C7_priority_key_typo :
    find_identifier_in_pdf_info doc_meta_natural (validate cfg_noweb quiet_web)
      mainKeysToCheckFirst =
      Except.ok (some ("10.1000/aaa", "DOI", PyVal.pybool true)) ∧
    lookupMeta [("/aaa", TextItem.str "10.1000/aaa"),
      ("/identifier", TextItem.str "10.1000/bbb")] "/identifier" =
      some (TextItem.str "10.1000/bbb") ∧
    (validate cfg_noweb quiet_web "10.1000/bbb" "doi").truthy = true ∧
    identifier_metadata_key = "/identifier" ∧
    identifier_metadata_key ∉ mainKeysToCheckFirst :=
  ⟨rfl, rfl, rfl, rfl, by decide⟩

/-! # Claim C10: doi patterns win only within a single text -/

/-- Counterexample to C10 over a list of texts: the first text holds a
candidate that validates as an arxiv id, the second holds a candidate that
the strict doi variant extracts and that validates as a doi, yet the
returned kind is the arxiv one: the doi variants of a later text are not
tried before the arxiv variants of an earlier text. -/
theorem claim_C10_counterexample :
    extract_doi_from_text (TextItem.str "doi: 10.1000/aaa ") 0 = ["10.1000/aaa"] ∧
    (validate cfg_noweb quiet_web "10.1000/aaa" "doi").truthy = true ∧
    find_identifier_in_text
      [TextItem.str "2407.03393", TextItem.str "doi: 10.1000/aaa "]
      (validate cfg_noweb quiet_web) =
      Except.ok (some ("2407.03393", "arxiv ID", PyVal.pybool true)) :=
  ⟨rfl, rfl, rfl⟩

theorem candidatesGo_of_exists {fv : Validator} {kind : String} (desc : String) :
    ∀ {cands : List String}, (∃ c ∈ cands, (fv c kind).truthy = true) →
    ∃ c, candidatesGo fv kind desc cands = some (c, desc, fv c kind) ∧
      (fv c kind).truthy = true := by
  intro cands
  induction cands with
  | nil => intro h; simp at h
  | cons c0 cs ih =>
    intro h
    by_cases h0 : (fv c0 kind).truthy = true
    · exact ⟨c0, by simp [candidatesGo, h0], h0⟩
    · obtain ⟨c, hc, hct⟩ := h
      rcases List.mem_cons.mp hc with rfl | hc2
      · exact absurd hct h0
      · obtain ⟨c2, hgo, ht2⟩ := ih ⟨c, hc2, hct⟩
        refine ⟨c2, ?_, ht2⟩
        simpa [candidatesGo, h0] using hgo

theorem candidatesGo_desc {fv : Validator} {kind desc : String} :
    ∀ {cands : List String} {r : Found},
    candidatesGo fv kind desc cands = some r → r.2.1 = desc := by
  intro cands
  induction cands with
  | nil => intro r h; simp [candidatesGo] at h
  | cons c0 cs ih =>
    intro r h
    by_cases h0 : (fv c0 kind).truthy = true
    · simp [candidatesGo, h0] at h
      rw [← h]
    · rw [show candidatesGo fv kind desc (c0 :: cs) =
          candidatesGo fv kind desc cs from by simp [candidatesGo, h0]] at h
      exact ih h

theorem candidatesGo_truthy {fv : Validator} {kind desc : String} :
    ∀ {cands : List String} {r : Found},
    candidatesGo fv kind desc cands = some r → (fv r.1 kind).truthy = true := by
  intro cands
  induction cands with
  | nil => intro r h; simp [candidatesGo] at h
  | cons c0 cs ih =>
    intro r h
    by_cases h0 : (fv c0 kind).truthy = true
    · rw [show candidatesGo fv kind desc (c0 :: cs) =
          some (c0, desc, fv c0 kind) from by simp [candidatesGo, h0]] at h
      rw [← Option.some.inj h]
      exact h0
    · rw [show candidatesGo fv kind desc (c0 :: cs) =
          candidatesGo fv kind desc cs from by simp [candidatesGo, h0]] at h
      exact ih h

theorem versionsGo_of_exists {fv : Validator} {kind : String} (desc : String)
    {extract : Nat → List String} :
    ∀ {vs : List Nat}, (∃ v ∈ vs, ∃ c ∈ extract v, (fv c kind).truthy = true) →
    ∃ c val, versionsGo fv kind desc extract vs = some (c, desc, val) ∧
      (fv c kind).truthy = true := by
  intro vs
  induction vs with
  | nil => intro h; simp at h
  | cons v0 vs ih =>
    intro h
    cases hgo : candidatesGo fv kind desc (extract v0) with
    | some r =>
      obtain ⟨c, d, val⟩ := r
      have hd : d = desc := candidatesGo_desc hgo
      have htr : (fv c kind).truthy = true := candidatesGo_truthy hgo
      refine ⟨c, val, ?_, htr⟩
      rw [show versionsGo fv kind desc extract (v0 :: vs) =
          (match candidatesGo fv kind desc (extract v0) with
            | some r => some r
            | none => versionsGo fv kind desc extract vs) from rfl, hgo, hd]
    | none =>
      obtain ⟨v, hv, c, hc, hct⟩ := h
      rcases List.mem_cons.mp hv with rfl | hv2
      · obtain ⟨c2, hgo2, _⟩ := candidatesGo_of_exists desc ⟨c, hc, hct⟩
        rw [hgo2] at hgo
        exact Option.noConfusion hgo
      · obtain ⟨c2, val, hver, ht2⟩ := ih ⟨v, hv2, c, hc, hct⟩
        refine ⟨c2, val, ?_, ht2⟩
        rw [show versionsGo fv kind desc extract (v0 :: vs) =
            (match candidatesGo fv kind desc (extract v0) with
              | some r => some r
              | none => versionsGo fv kind desc extract vs) from rfl, hgo]
        exact hver

/-- extract_doi_from_text yields nothing beyond the five versions of
doi_regexp. -/
theorem extract_doi_version_bound {t : TextItem} {v : Nat} {c : String}
    (h : c ∈ extract_doi_from_text t v) : v < 5 := by
  by_contra hv
  have h5 : ∃ w, v = w + 5 := ⟨v - 5, by omega⟩
  obtain ⟨w, rfl⟩ := h5
  cases t with
  | str s =>
    have : extract_doi_from_text (TextItem.str s) (w + 5) = [] := rfl
    rw [this] at h
    simp at h
  | pynone =>
    have : extract_doi_from_text TextItem.pynone (w + 5) = [] := rfl
    rw [this] at h
    simp at h
  | bytes d s =>
    have : extract_doi_from_text (TextItem.bytes d s) (w + 5) = [] := rfl
    rw [this] at h
    simp at h

/-- C10 as amended: within a single text, a candidate that validates as a
doi through any doi pattern version makes the scan return kind DOI,
regardless of where any arxiv-shaped candidates sit in the text. -/
theorem claim_C10_doi_wins_single_text (s : String) (fv : Validator)
    (h : ∃ v c, c ∈ extract_doi_from_text (TextItem.str s) v ∧
      (fv c "doi").truthy = true) :
    ∃ c val, find_identifier_in_text [TextItem.str s] fv =
      Except.ok (some (c, "DOI", val)) ∧ (fv c "doi").truthy = true := by
  obtain ⟨v, c, hc, hct⟩ := h
  have hv5 : v < 5 := extract_doi_version_bound hc
  obtain ⟨c2, val, hver, ht2⟩ :=
    versionsGo_of_exists "DOI" ⟨v, List.mem_range.mpr hv5, c, hc, hct⟩
  refine ⟨c2, val, ?_, ht2⟩
  show (match decodeItem (TextItem.str s) with
    | Except.error e => Except.error e
    | Except.ok t2 =>
      match doiScan t2 fv with
      | some r => Except.ok (some r)
      | none =>
        match arxivScan t2 fv with
        | some r => Except.ok (some r)
        | none => find_identifier_in_text [] fv) = Except.ok (some (c2, "DOI", val))
  show (match doiScan (TextItem.str s) fv with
    | some r => Except.ok (some r)
    | none =>
      match arxivScan (TextItem.str s) fv with
      | some r => Except.ok (some r)
      | none => find_identifier_in_text [] fv) = Except.ok (some (c2, "DOI", val))
  rw [show doiScan (TextItem.str s) fv =
    versionsGo fv "doi" "DOI" (extract_doi_from_text (TextItem.str s))
      (List.range 5) from rfl]
  rw [hver]

/-! # Claim C8: the filename strategy -/

theorem splitCharGo_ne_nil (sep : Char) : ∀ (s : Str) (cur : Str),
    splitCharGo sep cur s ≠ [] := by
  intro s
  induction s with
  | nil => intro cur; simp [splitCharGo]
  | cons c t ih =>
    intro cur
    by_cases hc : c = sep
    · simp [splitCharGo, hc]
    · rw [show splitCharGo sep cur (c :: t) = splitCharGo sep (c :: cur) t from by
        simp [splitCharGo, hc]]
      exact ih (c :: cur)

theorem splitChar_ne_nil (sep : Char) (s : Str) : splitChar sep s ≠ [] :=
  splitCharGo_ne_nil sep s []

theorem accumJoinGo_eq (qs : List Str) : ∀ acc : Str,
    accumJoinGo acc qs = (List.range (qs.length + 1)).map
      (fun k => acc ++ ((qs.take k).map (fun q => '.' :: q)).flatten) := by
  induction qs with
  | nil =>
    intro acc
    simp [accumJoinGo, List.range_succ]
  | cons q qs ih =>
    intro acc
    rw [show accumJoinGo acc (q :: qs) = acc :: accumJoinGo (acc ++ '.' :: q) qs
      from rfl]
    rw [ih]
    rw [show (q :: qs).length + 1 = (qs.length + 1) + 1 from by simp]
    conv_rhs => rw [List.range_succ_eq_map, List.map_cons, List.map_map]
    congr 1
    · simp
    · refine List.map_congr_left ?_
      intro k _
      simp [Function.comp, List.take_succ_cons, List.append_assoc]

/-- C8: the filename strategy scans the base name first and then, longest
first, every name formed by a strictly shorter prefix of its dot-separated
pieces (the name with trailing dot-suffixes progressively stripped); on the
scenario file 2407.03393.pdf it confirms the arxiv identifier 2407.03393. -/
theorem claim_C8_filename_strategy :
    (∀ name : String,
      filenameTexts name = basename name ::
        ((List.range (splitChar '.' (basename name).toList).length).map
          (fun k => String.mk (dotJoin
            ((splitChar '.' (basename name).toList).take (k + 1))))).reverse) ∧
    filenameTexts "2407.03393.pdf" =
      ["2407.03393.pdf", "2407.03393.pdf", "2407.03393", "2407"] ∧
    find_identifier_in_filename doc_arxiv_2407 (validate cfg_noweb quiet_web) =
      Except.ok (some ("2407.03393", "arxiv ID", PyVal.pybool true)) := by
  refine ⟨?_, rfl, rfl⟩
  intro name
  show basename name ::
      ((accumJoin (splitChar '.' (basename name).toList)).reverse).map String.mk = _
  cases hsplit : splitChar '.' (basename name).toList with
  | nil => exact absurd hsplit (splitChar_ne_nil _ _)
  | cons p ps =>
    congr 1
    rw [show accumJoin (p :: ps) = accumJoinGo p ps from rfl, accumJoinGo_eq,
      List.map_reverse]
    congr 1
    rw [List.map_map]
    rw [show (p :: ps).length = ps.length + 1 from by simp]
    refine List.map_congr_left ?_
    intro k _
    simp only [Function.comp, List.take_succ_cons]
    rfl

/-! # Claim C9: an absent identifier comes with an absent payload -/

theorem find_identifier_ok_inv {doc : Document} {method : String} {fv : Validator}
    {cfg : Config} {web : Web} {keys : List String} {r : ResultDict}
    (h : find_identifier doc method fv cfg web keys = Except.ok r) :
    r.identifier = none → r.validation_info = PyVal.pynone := by
  unfold find_identifier at h
  by_cases hm : method ∉ finder_method_names
  · rw [if_pos hm] at h
    simp at h
  · rw [if_neg hm] at h
    cases hd : dispatchFinder doc fv cfg web keys method with
    | error e => rw [hd] at h; simp at h
    | ok trip =>
      rw [hd] at h
      cases trip with
      | none =>
        have hr := Except.ok.inj h
        intro _
        rw [← hr]
      | some t =>
        have hr := Except.ok.inj h
        intro hid
        rw [← hr] at hid
        simp at hid

/-- C9: for every document, configuration and network, a result returned by
the pipeline with an absent identifier also has an absent validation
payload. -/
theorem claim_C9_absent_identifier_absent_payload :
    ∀ (doc : Document) (cfg : Config) (web : Web) (r : ResultDict),
    pdf2doi_singlefile doc cfg web = Except.ok r →
    r.identifier = none → r.validation_info = PyVal.pynone := by
  intro doc cfg web r h
  unfold pdf2doi_singlefile at h
  cases h1 : find_identifier doc "document_infos" (validate cfg web) cfg web
      mainKeysToCheckFirst with
  | error e => rw [h1] at h; simp at h
  | ok r1 =>
    rw [h1] at h
    by_cases t1 : identifierTruthy r1.identifier = true
    · simp only [t1, if_true] at h
      have := Except.ok.inj h
      subst this
      exact find_identifier_ok_inv h1
    · simp only [t1, if_false] at h
      cases h2 : find_identifier doc "filename" (validate cfg web) cfg web [] with
      | error e => rw [h2] at h; simp at h
      | ok r2 =>
        rw [h2] at h
        by_cases t2 : identifierTruthy r2.identifier = true
        · simp only [t2, if_true] at h
          have := Except.ok.inj h
          subst this
          exact find_identifier_ok_inv h2
        · simp only [t2, if_false] at h
          cases h3 : find_identifier doc "document_text" (validate cfg web) cfg web [] with
          | error e => rw [h3] at h; simp at h
          | ok r3 =>
            rw [h3] at h
            by_cases t3 : identifierTruthy r3.identifier = true
            · simp only [t3, if_true] at h
              have := Except.ok.inj h
              subst this
              exact find_identifier_ok_inv h3
            · simp only [t3, if_false] at h
              cases h4 : find_identifier doc "title_google" (validate cfg web) cfg web [] with
              | error e => rw [h4] at h; simp at h
              | ok r4 =>
                rw [h4] at h
                by_cases t4 : identifierTruthy r4.identifier = true
                · simp only [t4, if_true] at h
                  have := Except.ok.inj h
                  subst this
                  exact find_identifier_ok_inv h4
                · simp only [t4, if_false] at h
                  cases h5 : find_identifier doc "first_N_characters_google"
                      (validate cfg web) cfg web [] with
                  | error e => rw [h5] at h; simp at h
                  | ok r5 =>
                    rw [h5] at h
                    have := Except.ok.inj h
                    subst this
                    exact find_identifier_ok_inv h5

/-- Witness for C9: the foo document resolves to a result with absent
identifier, whose payload the theorem shows absent. -/
theorem claim_C9_witness :
    pdf2doi_singlefile doc_foo default_config quiet_web =
      Except.ok { identifier := none, identifier_type := none,
                  validation_info := PyVal.pynone, path := "foo.pdf",
                  method := "first_N_characters_google" } ∧
    ({ identifier := none, identifier_type := none,
       validation_info := PyVal.pynone, path := "foo.pdf",
       method := "first_N_characters_google" } : ResultDict).validation_info =
      PyVal.pynone :=
  ⟨rfl, claim_C9_absent_identifier_absent_payload doc_foo default_config quiet_web
    _ rfl rfl⟩

/-! # Claim C6: exception safety of the pipeline -/

theorem find_text_cons_eq {t : TextItem} {rest : List TextItem} {fv : Validator} :
    find_identifier_in_text (t :: rest) fv =
      (match decodeItem t with
        | Except.error e => Except.error e
        | Except.ok t2 =>
          match doiScan t2 fv with
          | some r => Except.ok (some r)
          | none =>
            match arxivScan t2 fv with
            | some r => Except.ok (some r)
            | none => find_identifier_in_text rest fv) := rfl

/-- find_identifier_in_text cannot raise on texts whose items decode. -/
theorem find_text_ok (fv : Validator) :
    ∀ (texts : List TextItem), (∀ t ∈ texts, itemClean t = true) →
    ∃ o, find_identifier_in_text texts fv = Except.ok o := by
  intro texts
  induction texts with
  | nil => intro _; exact ⟨none, rfl⟩
  | cons t rest ih =>
    intro h
    have ht : itemClean t = true := h t (by simp)
    have hdec : ∃ t2, decodeItem t = Except.ok t2 := by
      cases t with
      | pynone => exact ⟨_, rfl⟩
      | str s => exact ⟨_, rfl⟩
      | bytes d s =>
        cases d with
        | true => exact ⟨_, rfl⟩
        | false => simp [itemClean] at ht
    obtain ⟨t2, hdec⟩ := hdec
    obtain ⟨o, ho⟩ := ih (fun x hx => h x (by simp [hx]))
    rw [find_text_cons_eq, hdec]
    cases hs : doiScan t2 fv with
    | some r => exact ⟨some r, by simp [hs]⟩
    | none =>
      cases ha : arxivScan t2 fv with
      | some r => exact ⟨some r, by simp [hs, ha]⟩
      | none => exact ⟨o, by simp [hs, ha, ho]⟩

theorem lookupMeta_mem {m : List (String × TextItem)} {k : String} {x : TextItem}
    (h : lookupMeta m k = some x) : (k, x) ∈ m := by
  unfold lookupMeta at h
  cases hf : m.find? (fun kv => kv.1 = k) with
  | none => rw [hf] at h; exact Option.noConfusion h
  | some kv =>
    rw [hf] at h
    have hmem := List.mem_of_find?_eq_some hf
    have hpred := List.find?_some hf
    have hk : kv.1 = k := by simpa using hpred
    have hx : kv.2 = x := Option.some.inj h
    have hkv : kv = (k, x) := by
      cases kv
      simp only at hk hx
      rw [hk, hx]
    rwa [← hkv]

theorem infoLoop_cons_eq {fv : Validator} {key : String} {ks : List String}
    {pdfinfo : List (String × TextItem)} :
    infoLoop fv (key :: ks) pdfinfo =
      (match lookupMeta pdfinfo key with
        | some value =>
          if strLowerS key ∈ KeysNotToUse then infoLoop fv ks pdfinfo
          else
            match find_identifier_in_text [value] fv with
            | Except.error e => Except.error e
            | Except.ok (some r) => Except.ok (some r)
            | Except.ok none => infoLoop fv ks (delMeta pdfinfo key)
        | none => infoLoop fv ks pdfinfo) := rfl

/-- The metadata key loop cannot raise when the dictionary values decode. -/
theorem infoLoop_ok (fv : Validator) :
    ∀ (keys : List String) (dict : List (String × TextItem)),
    (∀ kv ∈ dict, itemClean kv.2 = true) →
    ∃ o, infoLoop fv keys dict = Except.ok o := by
  intro keys
  induction keys with
  | nil => intro dict _; exact ⟨none, rfl⟩
  | cons key ks ih =>
    intro dict h
    rw [infoLoop_cons_eq]
    cases hl : lookupMeta dict key with
    | none =>
      obtain ⟨o, ho⟩ := ih dict h
      exact ⟨o, by simp [ho]⟩
    | some value =>
      by_cases hex : strLowerS key ∈ KeysNotToUse
      · obtain ⟨o, ho⟩ := ih dict h
        exact ⟨o, by simp [hex, ho]⟩
      · have hvc : itemClean value = true := h (key, value) (lookupMeta_mem hl)
        obtain ⟨o1, ho1⟩ := find_text_ok fv [value] (by
          intro x hx
          rw [List.mem_singleton.mp hx]
          exact hvc)
        have hdel : ∀ kv ∈ delMeta dict key, itemClean kv.2 = true := by
          intro kv hkv
          exact h kv ((List.eraseP_sublist dict).subset hkv)
        obtain ⟨o2, ho2⟩ := ih (delMeta dict key) hdel
        cases o1 with
        | some r => exact ⟨some r, by simp [hex, ho1]⟩
        | none => exact ⟨o2, by simp [hex, ho1, ho2]⟩

theorem get_pdf_info_of_infoResult {doc : Document}
    {m : List (String × TextItem)} (h : get_pdf_info doc = some m) :
    doc.infoResult = PyResult.ok m := by
  unfold get_pdf_info at h
  cases hi : doc.infoResult with
  | raise => rw [hi] at h; exact Option.noConfusion h
  | ok m2 => rw [hi] at h; rw [Option.some.inj h]

/-- The metadata strategy cannot raise on a clean document. -/
theorem find_pdf_info_ok {doc : Document} {fv : Validator} {keys : List String}
    (hc : ∀ m, doc.infoResult = PyResult.ok m → ∀ kv ∈ m, itemClean kv.2 = true) :
    ∃ o, find_identifier_in_pdf_info doc fv keys = Except.ok o := by
  unfold find_identifier_in_pdf_info
  cases hi : get_pdf_info doc with
  | none => exact ⟨none, rfl⟩
  | some m =>
    by_cases hnil : m = []
    · exact ⟨none, by simp [hnil]⟩
    · obtain ⟨o, ho⟩ := infoLoop_ok fv (keys ++ m.map (fun kv => kv.1)) m
        (hc m (get_pdf_info_of_infoResult hi))
      exact ⟨o, by simp [hnil, ho]⟩

/-- Under an unengaged textract fallback every text list produced by
get_pdf_text consists of plain strings. -/
theorem get_pdf_text_str {doc : Document} (ht : doc.textract2 = PyResult.raise)
    (reader : String) : ∀ {l : List TextItem}, get_pdf_text doc reader = some l →
    ∀ t ∈ l, ∃ s, t = TextItem.str s := by
  intro l h t htl
  unfold get_pdf_text at h
  by_cases h1 : reader = "pypdf"
  · rw [if_pos h1] at h
    cases hp : doc.pypdfPages with
    | raise => rw [hp] at h; exact Option.noConfusion h
    | ok pages =>
      rw [hp] at h
      rw [← Option.some.inj h] at htl
      obtain ⟨s, _, hs⟩ := List.mem_map.mp htl
      exact ⟨s, hs.symm⟩
  · rw [if_neg h1] at h
    by_cases h2 : reader = "textract"
    · rw [if_pos h2] at h
      cases ht1 : doc.textract1 with
      | ok s =>
        rw [ht1] at h
        rw [← Option.some.inj h] at htl
        rw [List.mem_singleton.mp htl]
        exact ⟨s, rfl⟩
      | raise =>
        rw [ht1, ht] at h
        rw [← Option.some.inj h] at htl
        simp at htl
    · rw [if_neg h2] at h
      rw [← Option.some.inj h] at htl
      simp at htl

theorem pdfTextGo_cons_eq {doc : Document} {fv : Validator} {reader : String}
    {rest : List String} :
    pdfTextGo doc fv (reader :: rest) =
      (let texts : List TextItem :=
        match get_pdf_text doc (strLowerS reader) with
        | none => [TextItem.pynone]
        | some l => l
      if texts = [] then pdfTextGo doc fv rest
      else
        match find_identifier_in_text texts fv with
        | Except.error e => Except.error e
        | Except.ok (some r) => Except.ok (some r)
        | Except.ok none => pdfTextGo doc fv rest) := rfl

/-- The document text strategy cannot raise on a clean document. -/
theorem pdfTextGo_ok {doc : Document} {fv : Validator}
    (ht : doc.textract2 = PyResult.raise) :
    ∀ (readers : List String), ∃ o, pdfTextGo doc fv readers = Except.ok o := by
  intro readers
  induction readers with
  | nil => exact ⟨none, rfl⟩
  | cons reader rest ih =>
    obtain ⟨o2, ho2⟩ := ih
    rw [pdfTextGo_cons_eq]
    cases hg : get_pdf_text doc (strLowerS reader) with
    | none =>
      obtain ⟨o1, ho1⟩ := find_text_ok fv [TextItem.pynone] (by intro x hx; simp at hx; rw [hx]; rfl)
      cases o1 with
      | some r => exact ⟨some r, by simp [ho1]⟩
      | none => exact ⟨o2, by simp [ho1, ho2]⟩
    | some l =>
      have hstr := get_pdf_text_str ht _ hg
      have hclean : ∀ t ∈ l, itemClean t = true := by
        intro t htl
        obtain ⟨s, hs⟩ := hstr t htl
        rw [hs]; rfl
      by_cases hnil : l = []
      · exact ⟨o2, by simp [hnil, ho2]⟩
      · obtain ⟨o1, ho1⟩ := find_text_ok fv l hclean
        cases o1 with
        | some r => exact ⟨some r, by simp [hnil, ho1]⟩
        | none => exact ⟨o2, by simp [hnil, ho1, ho2]⟩

/-- Joining a list of plain strings cannot raise. -/
theorem joinList_ok : ∀ {items : List TextItem},
    (∀ t ∈ items, ∃ s, t = TextItem.str s) → ∃ s, joinList items = Except.ok s := by
  intro items
  induction items with
  | nil => intro _; exact ⟨"", rfl⟩
  | cons t rest ih =>
    intro h
    obtain ⟨s, hs⟩ := h t (by simp)
    subst hs
    obtain ⟨s2, hs2⟩ := ih (fun x hx => h x (by simp [hx]))
    exact ⟨s ++ s2, by simp [joinList, hs2]⟩

theorem googleNGo_cons_eq {doc : Document} {fv : Validator} {cfg : Config}
    {web : Web} {nr nc : Nat} {reader : String} {rest : List String} :
    googleNGo doc fv cfg web nr nc (reader :: rest) =
      (match get_pdf_text doc (strLowerS reader) with
        | none => googleNGo doc fv cfg web nr nc rest
        | some items =>
          if items = [] then googleNGo doc fv cfg web nr nc rest
          else
            match joinList items with
            | Except.error e => Except.error e
            | Except.ok text1 =>
              let text2 := sanitizeText text1
              if text2 = "" then googleNGo doc fv cfg web nr nc rest
              else
                match find_identifier_in_google_search
                    (String.mk (text2.toList.take nc)) fv nr web with
                | some r => Except.ok (some r)
                | none => googleNGo doc fv cfg web nr nc rest) := rfl

/-- The content web search strategy cannot raise on a clean document. -/
theorem googleNGo_ok {doc : Document} {fv : Validator} {cfg : Config} {web : Web}
    {nr nc : Nat} (ht : doc.textract2 = PyResult.raise) :
    ∀ (readers : List String), ∃ o, googleNGo doc fv cfg web nr nc readers = Except.ok o := by
  intro readers
  induction readers with
  | nil => exact ⟨none, rfl⟩
  | cons reader rest ih =>
    obtain ⟨o2, ho2⟩ := ih
    rw [googleNGo_cons_eq]
    cases hg : get_pdf_text doc (strLowerS reader) with
    | none => exact ⟨o2, by simp [ho2]⟩
    | some items =>
      by_cases hnil : items = []
      · exact ⟨o2, by simp [hnil, ho2]⟩
      · obtain ⟨s, hs⟩ := joinList_ok (get_pdf_text_str ht _ hg)
        by_cases hemp : sanitizeText s = ""
        · exact ⟨o2, by simp [hnil, hs, hemp, ho2]⟩
        · cases hsearch : find_identifier_in_google_search
              (String.mk ((sanitizeText s).toList.take nc)) fv nr web with
          | some r =>
            refine ⟨some r, ?_⟩
            simp only [String.toList] at hsearch
            simp [hnil, hs, hemp, hsearch]
          | none =>
            refine ⟨o2, ?_⟩
            simp only [String.toList] at hsearch
            simp [hnil, hs, hemp, hsearch, ho2]

/-- No finder method of the pipeline raises on a clean document. -/
theorem find_identifier_ok {doc : Document} {method : String} {fv : Validator}
    {cfg : Config} {web : Web} {keys : List String} (hc : cleanDoc doc)
    (hmem : method ∈ finder_method_names) :
    ∃ r, find_identifier doc method fv cfg web keys = Except.ok r := by
  obtain ⟨hinfo, ht⟩ := hc
  have hdis : ∃ o, dispatchFinder doc fv cfg web keys method = Except.ok o := by
    unfold dispatchFinder
    rcases (show method = "document_infos" ∨ method = "document_text" ∨
        method = "filename" ∨ method = "title_google" ∨
        method = "first_N_characters_google"
      from by simpa [finder_method_names] using hmem) with rfl | rfl | rfl | rfl | rfl
    · simp only [String.reduceEq, reduceIte]
      exact find_pdf_info_ok hinfo
    · simp only [String.reduceEq, reduceIte]
      exact pdfTextGo_ok ht reader_libraries
    · simp only [String.reduceEq, reduceIte]
      exact find_text_ok fv ((filenameTexts doc.name).map TextItem.str) (by
        intro t htl
        obtain ⟨s, _, hs⟩ := List.mem_map.mp htl
        rw [← hs]; rfl)
    · simp only [String.reduceEq, reduceIte]
      exact ⟨_, rfl⟩
    · simp only [String.reduceEq, reduceIte]
      unfold find_identifier_by_googling_first_N_characters_in_pdf
      by_cases hws : cfg.websearch = false
      · exact ⟨none, by simp [hws]⟩
      · obtain ⟨o, ho⟩ := @googleNGo_ok doc fv cfg web cfg.numb_results_google_search
          cfg.N_characters_in_pdf ht reader_libraries
        exact ⟨o, by simp [hws, ho]⟩
  obtain ⟨o, ho⟩ := hdis
  unfold find_identifier
  rw [if_neg (by simp [hmem]), ho]
  exact ⟨_, rfl⟩

/-- C6 as amended: on documents whose collaborators hand only decodable
strings to the finders, the pipeline returns a result for every
configuration and network, and no exception escapes; the foo scenario
returns an absent identifier. -/
theorem claim_C6_clean_documents_no_exception :
    (∀ (doc : Document) (cfg : Config) (web : Web), cleanDoc doc →
      ∃ r, pdf2doi_singlefile doc cfg web = Except.ok r) ∧
    pdf2doi_singlefile doc_foo default_config quiet_web =
      Except.ok { identifier := none, identifier_type := none,
                  validation_info := PyVal.pynone, path := "foo.pdf",
                  method := "first_N_characters_google" } := by
  refine ⟨?_, rfl⟩
  intro doc cfg web hc
  unfold pdf2doi_singlefile
  obtain ⟨r1, h1⟩ := @find_identifier_ok doc "document_infos" (validate cfg web)
    cfg web mainKeysToCheckFirst hc (by simp [finder_method_names])
  rw [h1]
  by_cases t1 : identifierTruthy r1.identifier = true
  · exact ⟨r1, by simp [t1]⟩
  · simp only [t1, if_false]
    obtain ⟨r2, h2⟩ := @find_identifier_ok doc "filename" (validate cfg web)
      cfg web [] hc (by simp [finder_method_names])
    rw [h2]
    by_cases t2 : identifierTruthy r2.identifier = true
    · exact ⟨r2, by simp [t2]⟩
    · simp only [t2, if_false]
      obtain ⟨r3, h3⟩ := @find_identifier_ok doc "document_text" (validate cfg web)
        cfg web [] hc (by simp [finder_method_names])
      rw [h3]
      by_cases t3 : identifierTruthy r3.identifier = true
      · exact ⟨r3, by simp [t3]⟩
      · simp only [t3, if_false]
        obtain ⟨r4, h4⟩ := @find_identifier_ok doc "title_google" (validate cfg web)
          cfg web [] hc (by simp [finder_method_names])
        rw [h4]
        by_cases t4 : identifierTruthy r4.identifier = true
        · exact ⟨r4, by simp [t4]⟩
        · simp only [t4, if_false]
          obtain ⟨r5, h5⟩ := @find_identifier_ok doc "first_N_characters_google"
            (validate cfg web) cfg web [] hc (by simp [finder_method_names])
          rw [h5]
          exact ⟨r5, rfl⟩

/-- Counterexample to C6 as stated: a metadata value that PyPDF2 delivers
as undecodable raw bytes makes the decode inside find_identifier_in_text
raise, and the exception escapes the pipeline. -/
theorem claim_C6_counterexample :
    pdf2doi_singlefile doc_bad_bytes default_config quiet_web =
      Except.error PyExn.unicodeDecodeError := rfl

/-- Witness for the amended C6: the foo scenario document is clean, and the
theorem applied to it returns a result with no exception. -/
theorem claim_C6_witness :
    cleanDoc doc_foo ∧
    ∃ r, pdf2doi_singlefile doc_foo cfg_noweb quiet_web = Except.ok r := by
  have hc : cleanDoc doc_foo := by
    constructor
    · intro m hm kv hkv
      rw [show doc_foo.infoResult = PyResult.ok [] from rfl] at hm
      injection hm with h
      subst h
      simp at hkv
    · rfl
  exact ⟨hc, claim_C6_clean_documents_no_exception.1 doc_foo cfg_noweb quiet_web hc⟩

/-! # Claim C3: strategy order and recovery of a stored identifier -/

/-- On a dictionary whose keys are pairwise distinct, lookup of a key finds
the value stored under it. -/
theorem lookupMeta_of_nodup {m : List (String × TextItem)} {k : String}
    {x : TextItem} (hmem : (k, x) ∈ m)
    (hnd : (m.map (fun kv => kv.1)).Nodup) : lookupMeta m k = some x := by
  induction m with
  | nil => simp at hmem
  | cons kv t ih =>
    obtain ⟨k1, x1⟩ := kv
    rw [List.map_cons] at hnd
    rcases List.mem_cons.mp hmem with heq | hmem2
    · injection heq with hk hx
      subst hk
      subst hx
      unfold lookupMeta
      rw [List.find?_cons_of_pos t (by simp)]
      rfl
    · have hk1 : k1 ≠ k := by
        intro h
        subst h
        exact (List.nodup_cons.mp hnd).1
          (List.mem_map.mpr ⟨(k1, x), hmem2, rfl⟩)
      unfold lookupMeta
      rw [List.find?_cons_of_neg t (by simp [hk1])]
      exact ih hmem2 (List.nodup_cons.mp hnd).2

/-- When the write-back key /identifier of the scanned dictionary holds a
text that find_identifier_in_text accepts, every other entry of the
dictionary scans to nothing, the remaining keys of the dictionary are
pairwise distinct and /identifier is among the keys still to visit, the
metadata key loop returns the stored identifier. -/
theorem infoLoop_finds {fv : Validator} {v dsc : String} {info : PyVal}
    {m : List (String × TextItem)}
    (hfind : find_identifier_in_text [TextItem.str v] fv =
      Except.ok (some (v, dsc, info)))
    (hpre : ∀ k item, (k, item) ∈ m → k ≠ "/identifier" →
      find_identifier_in_text [item] fv = Except.ok none) :
    ∀ (keys : List String) (dict : List (String × TextItem)),
    dict ⊆ m →
    ("/identifier", TextItem.str v) ∈ dict →
    (dict.map (fun kv => kv.1)).Nodup →
    "/identifier" ∈ keys →
    infoLoop fv keys dict = Except.ok (some (v, dsc, info)) := by
  intro keys
  induction keys with
  | nil => intro dict _ _ _ hk; simp at hk
  | cons key ks ih =>
    intro dict hsub hmem hnd hk
    rw [infoLoop_cons_eq]
    by_cases hkey : key = "/identifier"
    · subst hkey
      simp only [lookupMeta_of_nodup hmem hnd]
      rw [if_neg (by decide)]
      rw [hfind]
    · have hks : "/identifier" ∈ ks := by
        rcases List.mem_cons.mp hk with h | h
        · exact absurd h.symm hkey
        · exact h
      cases hl : lookupMeta dict key with
      | none =>
        simp only [hl]
        exact ih dict hsub hmem hnd hks
      | some value =>
        simp only [hl]
        by_cases hex : strLowerS key ∈ KeysNotToUse
        · rw [if_pos hex]
          exact ih dict hsub hmem hnd hks
        · rw [if_neg hex]
          have hvm : (key, value) ∈ m := hsub (lookupMeta_mem hl)
          simp only [hpre key value hvm hkey]
          refine ih (delMeta dict key) ?_ ?_ ?_ hks
          · exact fun x hx => hsub ((List.eraseP_sublist dict).subset hx)
          · refine (List.mem_eraseP_of_neg ?_).mpr hmem
            simp only [decide_eq_true_eq]
            exact fun h => hkey h.symm
          · exact hnd.sublist ((List.eraseP_sublist dict).map (fun kv => kv.1))

/-- Counterexample to C3: the metadata of the document holds a valid
identifier under the write-back key /identifier, yet the pipeline does not
return that identifier; the misspelt priority list lets the other metadata
field win inside the metadata strategy. -/
theorem claim_C3_counterexample :
    doc_meta_priority.infoResult = PyResult.ok
      [("/doi", TextItem.str "10.1000/aaa"),
       ("/identifier", TextItem.str "10.1000/bbb")] ∧
    validate cfg_noweb quiet_web "10.1000/bbb" "doi" = PyVal.pybool true ∧
    pdf2doi_singlefile doc_meta_priority cfg_noweb quiet_web =
      Except.ok { identifier := some "10.1000/aaa", identifier_type := some "DOI",
                  validation_info := PyVal.pybool true, path := "paper.pdf",
                  method := "document_infos" } ∧
    some "10.1000/aaa" ≠ some "10.1000/bbb" :=
  ⟨rfl, rfl, rfl, by decide⟩

/-- C3 as amended: the pipeline equals the first-confirmed-wins fold over
the fixed strategy order metadata, filename, document text, title search,
first-characters search; and a document whose metadata holds a valid
identifier under the write-back key /identifier recovers exactly that
identifier through the metadata strategy provided no other metadata field
yields an identifier (the misspelt priority list gives /identifier no
priority over the other fields, see the counterexample). -/
theorem claim_C3_fixed_order_and_recovery :
    (∀ (doc : Document) (cfg : Config) (web : Web),
      pdf2doi_singlefile doc cfg web = resolveSpecGo doc cfg web strategyOrder) ∧
    (∀ (doc : Document) (cfg : Config) (web : Web)
      (m : List (String × TextItem)) (v dsc : String) (info : PyVal),
      doc.infoResult = PyResult.ok m →
      (m.map (fun kv => kv.1)).Nodup →
      ("/identifier", TextItem.str v) ∈ m →
      v ≠ "" →
      find_identifier_in_text [TextItem.str v] (validate cfg web) =
        Except.ok (some (v, dsc, info)) →
      (∀ k item, (k, item) ∈ m → k ≠ "/identifier" →
        find_identifier_in_text [item] (validate cfg web) = Except.ok none) →
      pdf2doi_singlefile doc cfg web = Except.ok
        { identifier := some v, identifier_type := some dsc,
          validation_info := info, path := doc.name,
          method := "document_infos" }) := by
  constructor
  · intro doc cfg web
    unfold pdf2doi_singlefile
    simp only [strategyOrder, resolveSpecGo, String.reduceEq, reduceIte]
    cases h1 : find_identifier doc "document_infos" (validate cfg web) cfg web
        mainKeysToCheckFirst with
    | error e => rfl
    | ok r1 =>
      by_cases t1 : identifierTruthy r1.identifier = true
      · simp only [t1, if_true]
      · simp only [t1, if_false]
        cases h2 : find_identifier doc "filename" (validate cfg web) cfg web [] with
        | error e => rfl
        | ok r2 =>
          by_cases t2 : identifierTruthy r2.identifier = true
          · simp only [t2, if_true]
          · simp only [t2, if_false]
            cases h3 : find_identifier doc "document_text" (validate cfg web)
                cfg web [] with
            | error e => rfl
            | ok r3 =>
              by_cases t3 : identifierTruthy r3.identifier = true
              · simp only [t3, if_true]
              · simp only [t3, if_false]
                cases h4 : find_identifier doc "title_google" (validate cfg web)
                    cfg web [] with
                | error e => rfl
                | ok r4 =>
                  by_cases t4 : identifierTruthy r4.identifier = true
                  · simp only [t4, if_true]
                  · simp only [t4, if_false]
                    cases h5 : find_identifier doc "first_N_characters_google"
                        (validate cfg web) cfg web [] with
                    | error e => rfl
                    | ok r5 => rfl
  · intro doc cfg web m v dsc info hinfo hnd hmem hv hfind hpre
    have h0 : find_identifier_in_pdf_info doc (validate cfg web)
        mainKeysToCheckFirst = Except.ok (some (v, dsc, info)) := by
      unfold find_identifier_in_pdf_info
      simp only [get_pdf_info, hinfo]
      rw [if_neg (List.ne_nil_of_mem hmem)]
      exact infoLoop_finds hfind hpre
        (mainKeysToCheckFirst ++ m.map (fun kv => kv.1)) m
        (fun x hx => hx) hmem hnd
        (List.mem_append.mpr (Or.inr (List.mem_map.mpr ⟨_, hmem, rfl⟩)))
    have h1 : find_identifier doc "document_infos" (validate cfg web) cfg web
        mainKeysToCheckFirst = Except.ok
        { identifier := some v, identifier_type := some dsc,
          validation_info := info, path := doc.name,
          method := "document_infos" } := by
      unfold find_identifier
      rw [if_neg (by simp [finder_method_names])]
      rw [show dispatchFinder doc (validate cfg web) cfg web mainKeysToCheckFirst
          "document_infos" = find_identifier_in_pdf_info doc (validate cfg web)
          mainKeysToCheckFirst from rfl]
      rw [h0]
      rfl
    have ht : identifierTruthy (some v) = true := by
      simp [identifierTruthy, hv]
    unfold pdf2doi_singlefile
    simp only [h1]
    rw [if_pos ht]

/-- Witness for the amended C3: on a document whose metadata holds only the
write-back entry, the theorem returns the stored identifier through the
metadata strategy. -/
theorem claim_C3_witness :
    pdf2doi_singlefile doc_meta_writeback cfg_noweb quiet_web = Except.ok
      { identifier := some "10.1000/bbb", identifier_type := some "DOI",
        validation_info := PyVal.pybool true, path := "paper.pdf",
        method := "document_infos" } :=
  claim_C3_fixed_order_and_recovery.2 doc_meta_writeback cfg_noweb quiet_web
    [("/identifier", TextItem.str "10.1000/bbb")] "10.1000/bbb" "DOI"
    (PyVal.pybool true) rfl (by simp) (by simp) (by decide) rfl
    (by intro k item hk hne; simp at hk; exact absurd hk.1 hne)

/-- Witness for the amended C10 at a concrete text. -/
theorem claim_C10_witness :
    ∃ c val, find_identifier_in_text [TextItem.str "doi: 10.1000/aaa "]
      (validate cfg_noweb quiet_web) =
      Except.ok (some (c, "DOI", val)) ∧
      (validate cfg_noweb quiet_web c "doi").truthy = true :=
  claim_C10_doi_wins_single_text "doi: 10.1000/aaa " (validate cfg_noweb quiet_web)
    ⟨0, "10.1000/aaa", by rw [show extract_doi_from_text
        (TextItem.str "doi: 10.1000/aaa ") 0 = ["10.1000/aaa"] from rfl]; simp, rfl⟩

end Pdf2doi
